import Mathlib

/-!
Verification of the configuration-reconciliation core of the fboss switch
agent (`fboss/agent/ApplyThriftConfig.cpp`) against its specification.

The C++ code is shallowly embedded: each `ThriftConfigApplier` method becomes
an executable Lean function over explicit records; `throw FbossError(...)`
becomes `Except.error`, the C++ `nullptr`-means-no-change convention becomes
`Option`, and `boost::container::flat_map` / `flat_set` become key-sorted
association lists.  Machine integers are modelled as `Nat`/`Int` with explicit
`% 2 ^ w` where the width matters.  Collaborators living outside this
repository (folly address utilities, `RouteUpdater`, the thrift-generated
field defaults, `LoadBalancerConfigApplier`) are modelled from the
specification and marked as such in their doc comments.
-/

deriving instance DecidableEq for Except

namespace Fboss

/-- A MAC address as six bytes (most significant first). -/
structure Mac where
  b0 : Nat
  b1 : Nat
  b2 : Nat
  b3 : Nat
  b4 : Nat
  b5 : Nat
deriving DecidableEq, Repr

/-- `folly::IPAddress`: either a 32-bit v4 or a 128-bit v6 address,
stored as the numeric value of the address bytes. -/
inductive IPAddr where
  | v4 (bits : Nat)
  | v6 (bits : Nat)
deriving DecidableEq, Repr

/-- Keep the top `len` bits of a `w`-bit value, zeroing the rest. -/
def maskBits (w bits len : Nat) : Nat :=
  bits / 2 ^ (w - len) * 2 ^ (w - len)

/-- `folly::IPAddress::mask`: zero all bits below the prefix length. -/
def IPAddr.mask : IPAddr → Nat → IPAddr
  | .v4 b, len => .v4 (maskBits 32 b len)
  | .v6 b, len => .v6 (maskBits 128 b len)

def IPAddr.isV4 : IPAddr → Bool
  | .v4 _ => true
  | .v6 _ => false

def IPAddr.isV6 : IPAddr → Bool
  | .v4 _ => false
  | .v6 _ => true

/-- `folly::IPAddress::isLinkLocal`: `169.254.0.0/16` for v4,
`fe80::/10` for v6. -/
def IPAddr.isLinkLocal : IPAddr → Bool
  | .v4 b => b / 2 ^ 16 = 0xa9fe
  | .v6 b => b / 2  ^ 118 = 0x3fa

/-- Modelled from the spec: each interface "contributes an IPv6 link-local
address derived from its MAC (standard EUI-64 construction)".  The
construction itself is `folly::IPAddressV6(LINK_LOCAL, mac)`, which lives
outside this repository: `fe80::/64` with the EUI-64 interface identifier
(universal/local bit of the first MAC byte flipped, `ff:fe` spliced in). -/
def linkLocalV6OfMac (m : Mac) : IPAddr :=
  .v6 (0xfe80 * 2 ^ 112 +
    (Nat.xor m.b0 2) * 2 ^ 56 + m.b1 * 2 ^ 48 + m.b2 * 2 ^ 40 +
    0xff * 2 ^ 32 + 0xfe * 2 ^ 24 + m.b3 * 2 ^ 16 + m.b4 * 2 ^ 8 + m.b5)

/-- Injective encoding of an address as a `Nat`, used as the sort key of the
association lists standing in for `flat_map<IPAddress, _>` (the particular
order is irrelevant, it only has to be canonical). -/
def ipKey : IPAddr → Nat
  | .v4 b => 2 * b
  | .v6 b => 2 * b + 1

/-! ### Key-sorted association lists (the model of `boost::flat_map`) -/

/-- The model of `boost::container::flat_map` with `Nat` keys: an
association list kept sorted by key by construction. -/
abbrev NatMap (α : Type) := List (Nat × α)

def nmFind {α : Type} (k : Nat) : NatMap α → Option α
  | [] => none
  | (k1, v) :: t => if k1 = k then some v else nmFind k t

/-- Insert before the first strictly larger key (keeps a sorted list
sorted). -/
def nmInsertSorted {α : Type} (k : Nat) (v : α) : NatMap α → NatMap α
  | [] => [(k, v)]
  | (k1, v1) :: t =>
    if k < k1 then (k, v) :: (k1, v1) :: t
    else (k1, v1) :: nmInsertSorted k v t

/-- Replace the binding of the first occurrence of key `k`. -/
def nmReplace {α : Type} (k : Nat) (v : α) : NatMap α → NatMap α
  | [] => []
  | (k1, v1) :: t =>
    if k1 = k then (k1, v) :: t else (k1, v1) :: nmReplace k v t

/-- `flat_map::emplace` / `insert`: keeps an existing binding; the returned
`Bool` says whether the insertion took place. -/
def nmEmplace {α : Type} (k : Nat) (v : α) (m : NatMap α) : NatMap α × Bool :=
  match nmFind k m with
  | some _ => (m, false)
  | none => (nmInsertSorted k v m, true)

/-- `flat_map::operator[] = v` (or an explicit overwrite through an
iterator): insert-or-overwrite. -/
def nmSet {α : Type} (k : Nat) (v : α) (m : NatMap α) : NatMap α :=
  match nmFind k m with
  | some _ => nmReplace k v m
  | none => nmInsertSorted k v m

def nmErase {α : Type} (k : Nat) : NatMap α → NatMap α
  | [] => []
  | (k1, v1) :: t => if k1 = k then t else (k1, v1) :: nmErase k t

def nmKeys {α : Type} (m : NatMap α) : List Nat := m.map (·.1)

/-! ### Error surface

All `throw FbossError(...)` sites of the translated code, one constructor
per distinguishable failure; glog `CHECK_*` fatal assertions (which abort
rather than throw) are modelled by `Err.checkFailed`. -/

inductive Err where
  | duplicateEntry (id : Nat)
  | duplicateVlanPort (port vlan : Nat)
  | unknownPort (id : Nat)
  | invalidQueueIndex (maxQueues : Nat)
  | invalidAqm
  | subportPriorityOutOfRange (idx : Nat)
  | checkFailed
  | vlanMultiRouter (vlan r1 r2 : Nat)
  | vlanMultiInterface (vlan count : Nat)
  | doubleProcess (intf vlan : Nat)
  | vlanAddressMismatchMask (vlan : Nat) (ip : IPAddr) (m1 m2 : Nat)
  | vlanAddressMismatchMac (vlan : Nat) (ip : IPAddr) (m1 m2 : Mac)
  | missingVlan (intf vlan : Nat)
  | defaultVlanMissing (vlan : Nat)
  | duplicateIntfAddress (intf : Nat) (ip : IPAddr)
  | duplicateNetwork (intf other router : Nat)
  | aclL4PortRange
  | aclPktLenRange
  | aclIcmpCode
  | aclIcmpType
  | aclIcmpProto
  | aclTtl
  | unknownMatcher (name : String)
  | dstPortConflict (acl : String) (aclPort policyPort : Int)
deriving DecidableEq, Repr

/-! ### Aggregate-port configuration and minimum-link computation -/

/-- `cfg::MinimumCapacity`, a thrift union: an absolute link count (a thrift
`byte`, i.e. `int8_t`) or a fraction of the member count (a C++ `double`,
modelled as a rational). -/
inductive MinimumCapacity where
  | linkCount (n : Int)
  | linkPercentage (f : ℚ)
deriving DecidableEq, Repr

/-- One entry of `cfg::AggregatePort::memberPorts`; `priority` is a thrift
`i32`, hence `Int`. -/
structure CfgAggregatePortMember where
  memberPortID : Nat
  priority : Int
  rate : Nat
  activity : Nat
deriving DecidableEq, Repr

structure CfgAggregatePort where
  key : Nat
  name : String
  description : String
  memberPorts : List CfgAggregatePortMember
  minimumCapacity : MinimumCapacity
deriving DecidableEq, Repr

/-- `ThriftConfigApplier::computeMinimumLinkCount`.  The C++ result variable
is a `uint8_t`, so the stored value is reduced `% 256`; the `CHECK_GE` /
`CHECK_GT` / `CHECK_LE` fatal assertions become `Err.checkFailed`; the
`double` percentage and `std::ceil` are modelled over `ℚ` with `Int.ceil`. -/
def computeMinimumLinkCount (cfg : CfgAggregatePort) : Except Err Nat :=
  match cfg.minimumCapacity with
  | .linkCount n =>
      if n < 1 then .error .checkFailed
      else .ok (n.toNat % 256)
  | .linkPercentage f =>
      if f ≤ 0 then .error .checkFailed
      else if 1 < f then .error .checkFailed
      else
        let m : Nat := cfg.memberPorts.length
        let c : Nat := (⌈f * (m : ℚ)⌉).toNat % 256
        if m ≠ 0 ∧ c < 1 then .error .checkFailed
        else .ok c

/-! ### Port queues and ports -/

/-- `cfg::ActiveQueueManagement`: `detection = none` models the
`QueueCongestionDetection::Type::__EMPTY__` thrift-union case; the detection
payload and the behavior field are collapsed to numeric codes. -/
structure Aqm where
  detection : Option Nat
  behavior : Nat
deriving DecidableEq, Repr

/-- `cfg::PortQueue`: raw thrift field values together with the
`__isset` flags of the optional fields. -/
structure CfgPortQueue where
  id : Nat
  streamType : Nat
  scheduling : Nat
  weight : Nat
  weightSet : Bool
  reservedBytes : Nat
  reservedBytesSet : Bool
  scalingFactor : Nat
  scalingFactorSet : Bool
  aqm : Aqm
  aqmSet : Bool
deriving DecidableEq, Repr

/-- The state-tree `PortQueue` node. -/
structure PortQueue where
  id : Nat
  streamType : Nat
  scheduling : Nat
  weight : Nat
  reservedBytes : Nat
  scalingFactor : Nat
  aqm : Aqm
deriving DecidableEq, Repr

/-- Modelled from the spec: the `std::make_shared<PortQueue>(i)` fresh
default queue; the concrete default field values live in
`fboss/agent/state/PortQueue.h`, outside this repository, and no claim
depends on them. -/
def PortQueue.fresh (i : Nat) : PortQueue :=
  { id := i, streamType := 0, scheduling := 0, weight := 0,
    reservedBytes := 0, scalingFactor := 0, aqm := ⟨none, 0⟩ }

/-- The equality guard of `ThriftConfigApplier::updatePortQueue`: it compares
the *raw* config field values against the original queue, with no regard to
the `__isset` flags (exactly as the source does). -/
def portQueueMatches (orig : PortQueue) (cfg : CfgPortQueue) : Bool :=
  orig.streamType == cfg.streamType && orig.scheduling == cfg.scheduling &&
  orig.weight == cfg.weight && orig.reservedBytes == cfg.reservedBytes &&
  orig.scalingFactor == cfg.scalingFactor && orig.aqm == cfg.aqm

/-- The clone-and-set branch of `updatePortQueue`: stream type and scheduling
are set unconditionally, the optional fields only when their `__isset` flag
is on (otherwise the cloned queue keeps the original value). -/
def portQueueMerge (orig : PortQueue) (cfg : CfgPortQueue) : PortQueue :=
  { id := orig.id
    streamType := cfg.streamType
    scheduling := cfg.scheduling
    weight := if cfg.weightSet then cfg.weight else orig.weight
    reservedBytes :=
      if cfg.reservedBytesSet then cfg.reservedBytes else orig.reservedBytes
    scalingFactor :=
      if cfg.scalingFactorSet then cfg.scalingFactor else orig.scalingFactor
    aqm := if cfg.aqmSet then cfg.aqm else orig.aqm }

/-- `ThriftConfigApplier::updatePortQueue`.  C++ returns either the original
shared pointer ("same node", modelled as `none`) or a freshly cloned queue
(`some`); the initial `CHECK_EQ(orig->getID(), cfg->id)` fatal assertion is
`Err.checkFailed`.  An `__isset` AQM whose congestion-detection variant is
empty fails, but only on the clone path, as in the source. -/
def updatePortQueue (orig : PortQueue) (cfg : CfgPortQueue) :
    Except Err (Option PortQueue) :=
  if orig.id ≠ cfg.id then .error .checkFailed
  else if portQueueMatches orig cfg then .ok none
  else if cfg.aqmSet ∧ cfg.aqm.detection = none then .error .invalidAqm
  else .ok (some (portQueueMerge orig cfg))

/-- The `flat_map<int, const cfg::PortQueue*> newQueues` of
`updatePortQueues`: keyed by queue id, first occurrence wins (`emplace`). -/
def buildQueueCfgMap (qs : List CfgPortQueue) : NatMap CfgPortQueue :=
  qs.foldl (fun m q => (nmEmplace q.id q m).1) []

/-- The indexed loop of `ThriftConfigApplier::updatePortQueues`: position
`i` of the original queue list is reconciled against the config entry for
queue id `i` when present (consuming it from the map), and reset to a fresh
default queue otherwise. -/
def updateQueuesAux (origQs : List PortQueue) (i : Nat)
    (m : NatMap CfgPortQueue) :
    Except Err (List PortQueue × NatMap CfgPortQueue) :=
  match origQs with
  | [] => .ok ([], m)
  | oq :: rest =>
    match nmFind i m with
    | some qcfg => do
        let r ← updatePortQueue oq qcfg
        let rest1 ← updateQueuesAux rest (i + 1) (nmErase i m)
        .ok ((r.getD oq) :: rest1.1, rest1.2)
    | none => do
        let rest1 ← updateQueuesAux rest (i + 1) m
        .ok (PortQueue.fresh i :: rest1.1, rest1.2)

/-- `cfg::Port` (the `pause` pair of booleans is collapsed to a code). -/
structure CfgPort where
  logicalID : Nat
  state : Nat
  ingressVlan : Nat
  speed : Nat
  pause : Nat
  sFlowIngressRate : Nat
  sFlowEgressRate : Nat
  name : String
  description : String
  fec : Nat
  queues : List CfgPortQueue
deriving DecidableEq, Repr

/-- The state-tree `Port` node; `vlans` is the derived VLAN membership
(`Port::VlanMembership`, vlan id → emitTags). -/
structure Port where
  id : Nat
  adminState : Nat
  ingressVlan : Nat
  speed : Nat
  pause : Nat
  sflowIngressRate : Nat
  sflowEgressRate : Nat
  name : String
  description : String
  fec : Nat
  queues : List PortQueue
  vlans : NatMap Bool
deriving DecidableEq, Repr

/-- `ThriftConfigApplier::updatePortQueues`: any config entry left over after
the indexed loop names a queue index beyond the platform's queue count. -/
def updatePortQueues (orig : Port) (cfg : CfgPort) :
    Except Err (List PortQueue) := do
  let r ← updateQueuesAux orig.queues 0 (buildQueueCfgMap cfg.queues)
  if r.2.length > 0 then .error (.invalidQueueIndex orig.queues.length)
  else .ok r.1

/-- `ThriftConfigApplier::updatePort` (`none` models the `nullptr`
"no change" return). -/
def updatePort (orig : Port) (portConf : CfgPort)
    (portVlans : NatMap (NatMap Bool)) : Except Err (Option Port) := do
  if orig.id ≠ portConf.logicalID then .error .checkFailed
  else
    let vlans := (nmFind orig.id portVlans).getD []
    let portQueues ← updatePortQueues orig portConf
    let queuesUnchanged :=
      portQueues.length == orig.queues.length && portQueues == orig.queues
    if portConf.state == orig.adminState &&
       portConf.ingressVlan == orig.ingressVlan &&
       portConf.speed == orig.speed &&
       portConf.pause == orig.pause &&
       portConf.sFlowIngressRate == orig.sflowIngressRate &&
       portConf.sFlowEgressRate == orig.sflowEgressRate &&
       portConf.name == orig.name &&
       portConf.description == orig.description &&
       vlans == orig.vlans &&
       portConf.fec == orig.fec &&
       queuesUnchanged then
      .ok none
    else
      .ok (some
        { id := orig.id
          adminState := portConf.state
          ingressVlan := portConf.ingressVlan
          vlans := vlans
          speed := portConf.speed
          pause := portConf.pause
          sflowIngressRate := portConf.sFlowIngressRate
          sflowEgressRate := portConf.sFlowEgressRate
          name := portConf.name
          description := portConf.description
          fec := portConf.fec
          queues := portQueues })

/-- `ThriftConfigApplier::updateMap`: insert the updated node (`some`) or
carry the original over (`none`); a duplicate id fails; the returned `Bool`
is this node's contribution to `changed`. -/
def updateMap {α : Type} (m : NatMap α) (id : Nat) (origNode : α)
    (newNode : Option α) : Except Err (NatMap α × Bool) :=
  match newNode with
  | some n =>
      let r := nmEmplace id n m
      if r.2 then .ok (r.1, true) else .error (.duplicateEntry id)
  | none =>
      let r := nmEmplace id origNode m
      if r.2 then .ok (r.1, false) else .error (.duplicateEntry id)

/-- Modelled from the spec: `Port::initDefaultConfigState` ("synthesize a
default-state port config (disabled)").  The function body lives in
`fboss/agent/state/Port.cpp`, outside this repository; only the port id and
the disabled admin state (code 0) are observable in the claims settled
here. -/
def defaultPortConfig (id : Nat) : CfgPort :=
  { logicalID := id, state := 0, ingressVlan := 0, speed := 0, pause := 0,
    sFlowIngressRate := 0, sFlowEgressRate := 0, name := "",
    description := "", fec := 0, queues := [] }

/-- First loop of `ThriftConfigApplier::updatePorts`: every supplied port
config must name an existing port (`UnknownPort` otherwise). -/
def updatePortsCfgLoop (origPorts : NatMap Port)
    (pv : NatMap (NatMap Bool)) :
    List CfgPort → NatMap Port → Bool → Except Err (NatMap Port × Bool)
  | [], acc, ch => .ok (acc, ch)
  | pc :: rest, acc, ch =>
    match nmFind pc.logicalID origPorts with
    | none => .error (.unknownPort pc.logicalID)
    | some origPort => do
        let newPort ← updatePort origPort pc pv
        let r ← updateMap acc pc.logicalID origPort newPort
        updatePortsCfgLoop origPorts pv rest r.1 (ch || r.2)

/-- Second loop of `updatePorts`: every original port with no config entry is
reconciled against the synthesized default (disabled) config. -/
def updatePortsOrigLoop (pv : NatMap (NatMap Bool)) :
    List (Nat × Port) → NatMap Port → Bool → Except Err (NatMap Port × Bool)
  | [], acc, ch => .ok (acc, ch)
  | (k, origPort) :: rest, acc, ch =>
    if (nmFind k acc).isSome then updatePortsOrigLoop pv rest acc ch
    else do
      let newPort ← updatePort origPort (defaultPortConfig k) pv
      let r ← updateMap acc k origPort newPort
      updatePortsOrigLoop pv rest r.1 (ch || r.2)

/-- `ThriftConfigApplier::updatePorts`. -/
def updatePorts (origPorts : NatMap Port) (cfgPorts : List CfgPort)
    (pv : NatMap (NatMap Bool)) : Except Err (Option (NatMap Port)) := do
  let r1 ← updatePortsCfgLoop origPorts pv cfgPorts [] false
  let r2 ← updatePortsOrigLoop pv origPorts r1.1 r1.2
  if r2.2 then .ok (some r2.1) else .ok none

/-! ### Interfaces and the per-VLAN interface index -/

/-- The state-tree `Interface` node.  `addresses` is `Interface::Addresses`
(a map IP → prefix length, kept as a list of pairs); `ndp` collapses
`cfg::NdpConfig` to a numeric code (the reconciler only compares it). -/
structure Interface where
  id : Nat
  routerID : Nat
  vlanID : Nat
  name : String
  mac : Mac
  mtu : Nat
  addresses : List (IPAddr × Nat)
  ndp : Nat
  isVirtual : Bool
  isStateSyncDisabled : Bool
deriving DecidableEq, Repr

/-- `ThriftConfigApplier::VlanIpInfo`. -/
structure VlanIpInfo where
  mask : Nat
  mac : Mac
  interfaceID : Nat
deriving DecidableEq, Repr

/-- `ThriftConfigApplier::VlanInterfaceInfo`; `addresses` is keyed by
`ipKey` of the stored address (the `flat_map<IPAddress, VlanIpInfo>`). -/
structure VlanInterfaceInfo where
  routerID : Nat
  interfaces : List Nat
  addresses : NatMap (IPAddr × VlanIpInfo)
deriving DecidableEq, Repr

/-- Sorted insert into a `flat_set<Nat>`. -/
def nsInsertSorted (k : Nat) : List Nat → List Nat
  | [] => [k]
  | k1 :: t => if k < k1 then k :: k1 :: t else k1 :: nsInsertSorted k t

/-- `flat_set::insert`: the `Bool` says whether insertion took place. -/
def nsInsert (k : Nat) (s : List Nat) : List Nat × Bool :=
  if k ∈ s then (s, false) else (nsInsertSorted k s, true)

/-- The per-address loop of `updateVlanInterfaces`: `emplace` each interface
address into the VLAN's address map; on an existing entry, allow the
duplicate only when prefix length ("mask") and MAC agree, failing with the
mask-mismatch error first, then the MAC-mismatch error, as in the source. -/
def vlanAddrsInsert (vlan : Nat) (mac : Mac) (intfID : Nat) :
    List (IPAddr × Nat) → NatMap (IPAddr × VlanIpInfo) →
    Except Err (NatMap (IPAddr × VlanIpInfo))
  | [], addrs => .ok addrs
  | (ip, mask) :: rest, addrs =>
    match nmFind (ipKey ip) addrs with
    | none =>
        vlanAddrsInsert vlan mac intfID rest
          (nmInsertSorted (ipKey ip) (ip, ⟨mask, mac, intfID⟩) addrs)
    | some (_, oldInfo) =>
        if oldInfo.mask ≠ mask then
          .error (.vlanAddressMismatchMask vlan ip oldInfo.mask mask)
        else if oldInfo.mac ≠ mac then
          .error (.vlanAddressMismatchMac vlan ip oldInfo.mac mac)
        else vlanAddrsInsert vlan mac intfID rest addrs

/-- The second half of `updateVlanInterfaces` (everything after the
router-id check): the `DoubleProcess` interface-set insert, the checked
address loop, and the final unchecked `emplace` of the derived v6
link-local address (a silent no-op when that address is already
present). -/
def vlanIntfRecord (m : NatMap VlanInterfaceInfo) (intf : Interface)
    (entry : VlanInterfaceInfo) : Except Err (NatMap VlanInterfaceInfo) :=
  let r := nsInsert intf.id entry.interfaces
  if r.2 = false then .error (.doubleProcess intf.id intf.vlanID)
  else
    match vlanAddrsInsert intf.vlanID intf.mac intf.id
        intf.addresses entry.addresses with
    | .error e => .error e
    | .ok addrs =>
        let ll := linkLocalV6OfMac intf.mac
        .ok (nmSet intf.vlanID
          { routerID := entry.routerID, interfaces := r.1,
            addresses :=
              (nmEmplace (ipKey ll) (ll, ⟨64, intf.mac, intf.id⟩) addrs).1 }
          m)

/-- `ThriftConfigApplier::updateVlanInterfaces`: record one interface in the
per-VLAN index.  The first interface on a VLAN sets the VLAN's router id;
a later interface with a different router id fails with the multi-router
error; the rest of the body is `vlanIntfRecord`. -/
def updateVlanInterfaces (m : NatMap VlanInterfaceInfo) (intf : Interface) :
    Except Err (NatMap VlanInterfaceInfo) :=
  let entry := (nmFind intf.vlanID m).getD ⟨0, [], []⟩
  if entry.interfaces.isEmpty then
    vlanIntfRecord m intf { entry with routerID := intf.routerID }
  else if intf.routerID ≠ entry.routerID then
    .error (.vlanMultiRouter intf.vlanID entry.routerID intf.routerID)
  else vlanIntfRecord m intf entry

/-- The sequence of `updateVlanInterfaces` calls made (one per surviving
interface, in config order) while `updateInterfaces` runs. -/
def processVlanInterfaces : List Interface → NatMap VlanInterfaceInfo →
    Except Err (NatMap VlanInterfaceInfo)
  | [], m => .ok m
  | i :: rest, m => do
      let m1 ← updateVlanInterfaces m i
      processVlanInterfaces rest m1

/-- Scenario S2's first interface: VLAN 10, router 1. -/
def s2IntfA : Interface :=
  { id := 1, routerID := 1, vlanID := 10, name := "ifA",
    mac := ⟨0xaa, 0xbb, 0xcc, 0, 0, 1⟩, mtu := 1500,
    addresses := [(.v4 0x0a000001, 24)], ndp := 0,
    isVirtual := false, isStateSyncDisabled := false }

/-- Scenario S2's second interface: same VLAN 10, router 2, same address,
prefix length and MAC as `s2IntfA`. -/
def s2IntfB : Interface :=
  { id := 2, routerID := 2, vlanID := 10, name := "ifB",
    mac := ⟨0xaa, 0xbb, 0xcc, 0, 0, 1⟩, mtu := 1500,
    addresses := [(.v4 0x0a000001, 24)], ndp := 0,
    isVirtual := false, isStateSyncDisabled := false }

/-- `cfg::Interface`.  Optional thrift fields are `Option`s; `ipAddresses`
holds the already-parsed `(address, prefix length)` pairs (parsing the
`"ip/len"` strings is `folly::IPAddress::createNetwork`, and the spec scopes
wire-format parsing out). -/
structure CfgInterface where
  intfID : Nat
  routerID : Nat
  vlanID : Nat
  name : Option String
  mac : Option Mac
  mtu : Option Nat
  ipAddresses : List (IPAddr × Nat)
  ndp : Option Nat
  isVirtual : Bool
  isStateSyncDisabled : Bool
deriving DecidableEq, Repr

/-- Key for an interface-route prefix (the `Prefix` typedef: a masked
address plus its length), via the injective Cantor pairing. -/
def pfxKey (p : IPAddr × Nat) : Nat := Nat.pair (ipKey p.1) p.2

/-- One router's `IntfRoute`: masked prefix → `(prefix, (interface id,
unmasked address))`, keyed by `pfxKey` of the stored prefix. -/
abbrev IntfRoute := NatMap ((IPAddr × Nat) × (Nat × IPAddr))

/-- `ThriftConfigApplier::intfRouteTables_`: router id → `IntfRoute`. -/
abbrev IntfRouteTable := NatMap IntfRoute

/-- The per-address loop of `getInterfaceAddresses`: insert each config
address into the interface's address map (duplicate IP within one interface
fails); skip v6 link-locals when recording the per-router interface route;
a prefix already recorded by a *different* interface of the same router
fails `DuplicateNetwork`, while a repeat from the same interface overwrites
with the later occurrence (spec invariant #10). -/
def intfAddrsLoop (intfID routerID : Nat) :
    List (IPAddr × Nat) → NatMap (IPAddr × Nat) → IntfRouteTable →
    Except Err (NatMap (IPAddr × Nat) × IntfRouteTable)
  | [], addrs, rt => .ok (addrs, rt)
  | (ip, len) :: rest, addrs, rt =>
    let r := nmEmplace (ipKey ip) (ip, len) addrs
    if r.2 = false then .error (.duplicateIntfAddress intfID ip)
    else
      if ip.isV6 && ip.isLinkLocal then
        intfAddrsLoop intfID routerID rest r.1 rt
      else
        let table := (nmFind routerID rt).getD []
        let pfx := (ip.mask len, len)
        match nmFind (pfxKey pfx) table with
        | none =>
            intfAddrsLoop intfID routerID rest r.1
              (nmSet routerID
                (nmInsertSorted (pfxKey pfx) (pfx, (intfID, ip)) table) rt)
        | some p =>
            if p.2.1 ≠ intfID then
              .error (.duplicateNetwork intfID p.2.1 routerID)
            else
              intfAddrsLoop intfID routerID rest r.1
                (nmSet routerID
                  (nmSet (pfxKey pfx) (pfx, (intfID, ip)) table) rt)

/-- `ThriftConfigApplier::getInterfaceAddresses`, threading the
`intfRouteTables_` member explicitly: first `emplace` the auto-generated
v6 link-local (derived from the config MAC, falling back to the platform
MAC) at prefix length 64 (`kV6LinkLocalAddrMask`), then run the config
address loop. -/
def getInterfaceAddresses (config : CfgInterface) (platformMac : Mac)
    (rt : IntfRouteTable) :
    Except Err (NatMap (IPAddr × Nat) × IntfRouteTable) :=
  let macAddr := config.mac.getD platformMac
  let v6ll := linkLocalV6OfMac macAddr
  let addrs0 := (nmEmplace (ipKey v6ll) (v6ll, 64) []).1
  intfAddrsLoop config.intfID config.routerID config.ipAddresses addrs0 rt

/-- No interface route table entry stores a v6 link-local interface
address (the property the spec asserts of `intfRouteTables_`). -/
def intfRouteTableNoV6LL (rt : IntfRouteTable) : Prop :=
  ∀ router table, nmFind router rt = some table →
    ∀ key p, nmFind key table = some p →
      ¬(p.2.2.isV6 = true ∧ p.2.2.isLinkLocal = true)

/-- The C6 counterexample interface config: its MAC derives one link-local
address, and `fe80::1/64` is configured as a second one (the source comment
explicitly allows this: "Config can have more link-local addresses if
needed"). -/
def c6Cfg : CfgInterface :=
  { intfID := 1, routerID := 0, vlanID := 10, name := none,
    mac := some ⟨0, 1, 2, 3, 4, 5⟩, mtu := none,
    ipAddresses := [(.v6 0xfe800000000000000000000000000001, 64)],
    ndp := none, isVirtual := false, isStateSyncDisabled := false }

/-- Scenario S4's second interface: same VLAN, router, address and prefix
length as `s2IntfA` but a different MAC. -/
def s4IntfB : Interface :=
  { id := 2, routerID := 1, vlanID := 10, name := "ifB",
    mac := ⟨0xaa, 0xbb, 0xcc, 0, 0, 2⟩, mtu := 1500,
    addresses := [(.v4 0x0a000001, 24)], ndp := 0,
    isVirtual := false, isStateSyncDisabled := false }

/-! ### ACLs -/

/-- `cfg::AclActionType`. -/
inductive AclActionType where
  | deny
  | permit
deriving DecidableEq, Repr

/-- `MatchAction` assembled from a traffic policy entry: an optional
send-to-queue pair (queue id, `false` = regular port queue) and an optional
packet-counter name. -/
structure MatchAction where
  sendToQueue : Option (Nat × Bool)
  packetCounter : Option String
deriving DecidableEq, Repr

/-- `cfg::AclEntry`: optional thrift fields as `Option`s (IP matches
already parsed to `(address, prefix length)`); `dstPort` is an `Int`
because the policy expansion compares it with the sentinel `-1`;
`icmpType`, `icmpCode` and the TTL pair are `Int` because `checkAcl`
tests them for negativity. -/
structure CfgAclEntry where
  name : String
  actionType : AclActionType
  srcIp : Option (IPAddr × Nat)
  dstIp : Option (IPAddr × Nat)
  proto : Option Nat
  tcpFlagsBitMap : Option Nat
  srcPort : Option Nat
  dstPort : Option Int
  srcL4PortRange : Option (Nat × Nat)
  dstL4PortRange : Option (Nat × Nat)
  pktLenRange : Option (Nat × Nat)
  ipFrag : Option Nat
  icmpType : Option Int
  icmpCode : Option Int
  dscp : Option Nat
  dstMac : Option Mac
  ipType : Option Nat
  ttl : Option (Int × Int)
deriving DecidableEq, Repr

/-- The state-tree `AclEntry` node. -/
structure AclEntry where
  priority : Nat
  name : String
  actionType : AclActionType
  aclAction : Option MatchAction
  srcIp : Option (IPAddr × Nat)
  dstIp : Option (IPAddr × Nat)
  proto : Option Nat
  tcpFlagsBitMap : Option Nat
  srcPort : Option Nat
  dstPort : Option Int
  srcL4PortRange : Option (Nat × Nat)
  dstL4PortRange : Option (Nat × Nat)
  pktLenRange : Option (Nat × Nat)
  ipFrag : Option Nat
  icmpType : Option Int
  icmpCode : Option Int
  dscp : Option Nat
  dstMac : Option Mac
  ipType : Option Nat
  ttl : Option (Int × Int)
deriving DecidableEq, Repr

/-- `kAclStartPriority` (source line 67). -/
def kAclStartPriority : Nat := 100000

/-- `ThriftConfigApplier::checkAcl`: one chained test per `throw` site, in
source order.  `kMaxPort = 65535`, `kMaxIcmpType = kMaxIcmpCode = 255`,
`kProtoIcmp = 1`, `kProtoIcmpv6 = 58` (constants from `AclEntry.h`, given
bit-exactly in the spec's ACL field table). -/
def checkAcl (config : CfgAclEntry) : Except Err Unit :=
  if config.srcL4PortRange.any (fun r => r.1 > 65535) then
    .error .aclL4PortRange
  else if config.srcL4PortRange.any (fun r => r.2 > 65535) then
    .error .aclL4PortRange
  else if config.srcL4PortRange.any (fun r => r.1 > r.2) then
    .error .aclL4PortRange
  else if config.dstL4PortRange.any (fun r => r.1 > 65535) then
    .error .aclL4PortRange
  else if config.dstL4PortRange.any (fun r => r.2 > 65535) then
    .error .aclL4PortRange
  else if config.dstL4PortRange.any (fun r => r.1 > r.2) then
    .error .aclL4PortRange
  else if config.pktLenRange.any (fun r => r.1 > r.2) then
    .error .aclPktLenRange
  else if config.icmpCode.isSome && !config.icmpType.isSome then
    .error .aclIcmpCode
  else if config.icmpType.any (fun t => t < 0 || t > 255) then
    .error .aclIcmpType
  else if config.icmpCode.any (fun c => c < 0 || c > 255) then
    .error .aclIcmpCode
  else if config.icmpType.isSome &&
      !(match config.proto with
        | some p => p == 1 || p == 58
        | none => false) then
    .error .aclIcmpProto
  else if config.ttl.any (fun t => t.1 > 255) then .error .aclTtl
  else if config.ttl.any (fun t => t.1 < 0) then .error .aclTtl
  else if config.ttl.any (fun t => t.2 > 255) then .error .aclTtl
  else if config.ttl.any (fun t => t.2 < 0) then .error .aclTtl
  else .ok ()

/-- `ThriftConfigApplier::createAcl`: validate, then build the entry with
the assigned priority; unset optional config fields leave the node fields
unset. -/
def createAcl (config : CfgAclEntry) (priority : Nat)
    (action : Option MatchAction) : Except Err AclEntry :=
  match checkAcl config with
  | .error e => .error e
  | .ok _ =>
      .ok { priority := priority, name := config.name,
            actionType := config.actionType, aclAction := action,
            srcIp := config.srcIp, dstIp := config.dstIp,
            proto := config.proto, tcpFlagsBitMap := config.tcpFlagsBitMap,
            srcPort := config.srcPort, dstPort := config.dstPort,
            srcL4PortRange := config.srcL4PortRange,
            dstL4PortRange := config.dstL4PortRange,
            pktLenRange := config.pktLenRange, ipFrag := config.ipFrag,
            icmpType := config.icmpType, icmpCode := config.icmpCode,
            dscp := config.dscp, dstMac := config.dstMac,
            ipType := config.ipType, ttl := config.ttl }

/-- `ThriftConfigApplier::updateAcl`: build the new entry; when an entry of
the same name exists in the previous state count it
(`numExistingProcessed`, the middle component) and return the original node
if it compares equal; the last component is the `*changed` contribution. -/
def updateAcl (origAcls : List (String × AclEntry)) (acl : CfgAclEntry)
    (priority : Nat) (action : Option MatchAction) :
    Except Err (AclEntry × Nat × Bool) :=
  match createAcl acl priority action with
  | .error e => .error e
  | .ok newAcl =>
      match origAcls.find? (fun e => e.1 == acl.name) with
      | some origEntry =>
          if origEntry.2 = newAcl then .ok (origEntry.2, 1, false)
          else .ok (newAcl, 1, true)
      | none => .ok (newAcl, 0, true)

/-- Accumulator of an ACL emission pass: the emitted `(name, entry)` pairs
in emission order, the next free priority, the `numExistingProcessed`
tally, and the `changed` flag. -/
structure AclEmit where
  entries : List (String × AclEntry)
  nextPriority : Nat
  numExisting : Nat
  changed : Bool
deriving DecidableEq, Repr

/-- The DENY pass of `updateAcls` (the generator pipeline at source lines
947-956, applied to the DENY-filtered config list): each entry, in config
order, is emitted with the next priority. -/
def emitDenyAcls (origAcls : List (String × AclEntry)) :
    List CfgAclEntry → Nat → Except Err AclEmit
  | [], priority => .ok ⟨[], priority, 0, false⟩
  | acl :: rest, priority =>
    match updateAcl origAcls acl priority none with
    | .error e => .error e
    | .ok r =>
        match emitDenyAcls origAcls rest (priority + 1) with
        | .error e => .error e
        | .ok rr =>
            .ok ⟨(acl.name, r.1) :: rr.entries, rr.nextPriority,
              r.2.1 + rr.numExisting, r.2.2 || rr.changed⟩

/-- One traffic-policy `matchToAction` entry. -/
structure MatchToAction where
  matcher : String
  sendToQueue : Option Nat
  packetCounter : Option String
deriving DecidableEq, Repr

/-- `cfg::TrafficPolicyConfig` (its `matchToAction` list). -/
abbrev TrafficPolicyConfig := List MatchToAction

/-- The `addToAcls` lambda of `updateAcls`: expand each policy matcher, in
policy order; an unknown matcher fails; a policy port conflicting with a
user-set `dstPort` fails (only when `dstPortID ≠ -1`); DENY matchers are
skipped without consuming a priority; the rest are cloned under the
`"system:<tag><matcher>"` name, given the policy's `MatchAction`, and
emitted with the next priority. -/
def addToAcls (origAcls : List (String × AclEntry))
    (cfgAcls : List CfgAclEntry) (tag : String) (dstPortID : Int) :
    TrafficPolicyConfig → Nat → Except Err AclEmit
  | [], priority => .ok ⟨[], priority, 0, false⟩
  | mta :: rest, priority =>
    match cfgAcls.find? (fun a => a.name == mta.matcher) with
    | none => .error (.unknownMatcher mta.matcher)
    | some aclCfg =>
        if dstPortID ≠ -1 ∧ aclCfg.dstPort.any (fun d => d ≠ dstPortID) then
          .error (.dstPortConflict aclCfg.name (aclCfg.dstPort.getD 0)
            dstPortID)
        else if aclCfg.actionType = .deny then
          addToAcls origAcls cfgAcls tag dstPortID rest priority
        else
          let aclCfg2 := { aclCfg with
            name := "system:" ++ tag ++ mta.matcher,
            dstPort :=
              if dstPortID ≠ -1 then some dstPortID else aclCfg.dstPort }
          let ma : MatchAction :=
            ⟨mta.sendToQueue.map (fun q => (q, false)), mta.packetCounter⟩
          match updateAcl origAcls aclCfg2 priority (some ma) with
          | .error e => .error e
          | .ok r =>
              match addToAcls origAcls cfgAcls tag dstPortID rest
                  (priority + 1) with
              | .error e => .error e
              | .ok rr =>
                  .ok ⟨(aclCfg2.name, r.1) :: rr.entries, rr.nextPriority,
                    r.2.1 + rr.numExisting, r.2.2 || rr.changed⟩

/-- `flat_map`-style insert keeping the first occurrence of a name (the
`folly::gen::appendTo(newAcls)` duplicate behaviour; kept in emission order
rather than name order, which no comparison observes). -/
def aclMapInsert (m : List (String × AclEntry)) (e : String × AclEntry) :
    List (String × AclEntry) :=
  if m.any (fun x => x.1 == e.1) then m else m ++ [e]

/-- `ThriftConfigApplier::updateAcls` (`none` models the `nullptr`
"no change" return). -/
def updateAcls (origAcls : List (String × AclEntry))
    (cfgAcls : List CfgAclEntry) (policy : Option TrafficPolicyConfig) :
    Except Err (Option (List (String × AclEntry))) :=
  match emitDenyAcls origAcls
      (cfgAcls.filter (fun a => a.actionType == .deny)) kAclStartPriority with
  | .error e => .error e
  | .ok deny =>
      match (match policy with
        | some p => addToAcls origAcls cfgAcls "" (-1) p deny.nextPriority
        | none => .ok ⟨[], deny.nextPriority, 0, false⟩ :
          Except Err AclEmit) with
      | .error e => .error e
      | .ok pol =>
          let newAcls := (deny.entries ++ pol.entries).foldl aclMapInsert []
          let changed := deny.changed || pol.changed ||
            (deny.numExisting + pol.numExisting ≠ origAcls.length)
          if changed then .ok (some newAcls) else .ok none

/-- Scenario S5's ACL `A` (PERMIT). -/
def s5AclA : CfgAclEntry :=
  { name := "A", actionType := .permit, srcIp := none, dstIp := none,
    proto := none, tcpFlagsBitMap := none, srcPort := none, dstPort := none,
    srcL4PortRange := none, dstL4PortRange := none, pktLenRange := none,
    ipFrag := none, icmpType := none, icmpCode := none, dscp := none,
    dstMac := none, ipType := none, ttl := none }

/-- Scenario S5's ACL `B` (DENY). -/
def s5AclB : CfgAclEntry :=
  { name := "B", actionType := .deny, srcIp := none, dstIp := none,
    proto := none, tcpFlagsBitMap := none, srcPort := none, dstPort := none,
    srcL4PortRange := none, dstL4PortRange := none, pktLenRange := none,
    ipFrag := none, icmpType := none, icmpCode := none, dscp := none,
    dstMac := none, ipType := none, ttl := none }

/-! ### Aggregate ports (LAGs) -/

/-- `AggregatePort::Subport` (member port id, priority, rate, activity). -/
structure Subport where
  portID : Nat
  priority : Nat
  rate : Nat
  activity : Nat
deriving DecidableEq, Repr

/-- The tuple (lexicographic) order on subports that drives `std::sort`. -/
def Subport.leB (a b : Subport) : Bool :=
  (a.portID < b.portID) ||
  (a.portID == b.portID && ((a.priority < b.priority) ||
    (a.priority == b.priority && ((a.rate < b.rate) ||
      (a.rate == b.rate && a.activity ≤ b.activity)))))

def sortInsert {α : Type} (le : α → α → Bool) (a : α) : List α → List α
  | [] => [a]
  | b :: t => if le a b then a :: b :: t else b :: sortInsert le a t

/-- A structurally recursive stable sort standing in for `std::sort` (the
order among equal elements is unobservable). -/
def insertionSort {α : Type} (le : α → α → Bool) : List α → List α
  | [] => []
  | a :: t => sortInsert le a (insertionSort le t)

/-- The member-port loop of `getSubportsSorted`: each priority must lie in
`[0, 2^16)` (the error records the member index). -/
def subportsOf (idx : Nat) : List CfgAggregatePortMember →
    Except Err (List Subport)
  | [] => .ok []
  | mp :: rest =>
    if mp.priority < 0 ∨ 65536 ≤ mp.priority then
      .error (.subportPriorityOutOfRange idx)
    else
      match subportsOf (idx + 1) rest with
      | .error e => .error e
      | .ok l =>
          .ok (⟨mp.memberPortID, mp.priority.toNat, mp.rate, mp.activity⟩ :: l)

/-- `ThriftConfigApplier::getSubportsSorted`. -/
def getSubportsSorted (cfg : CfgAggregatePort) : Except Err (List Subport) :=
  match subportsOf 0 cfg.memberPorts with
  | .error e => .error e
  | .ok l => .ok (insertionSort Subport.leB l)

/-- The `lacp` section of the switch config. -/
structure CfgLacp where
  systemID : Mac
  systemPriority : Nat
deriving DecidableEq, Repr

/-- Modelled from the spec: `kDefaultSystemPriority` lives in
`fboss/agent/LacpTypes.h`, outside this repository; the concrete value is
irrelevant to every claim settled here. -/
def kDefaultSystemPriority : Nat := 65535

/-- `ThriftConfigApplier::getSystemLacpConfig`: the configured system LACP
id, or `(platform.local_mac, default priority)`. -/
def getSystemLacpConfig (lacp : Option CfgLacp) (platformMac : Mac) :
    Mac × Nat :=
  match lacp with
  | some l => (l.systemID, l.systemPriority)
  | none => (platformMac, kDefaultSystemPriority)

/-- The state-tree `AggregatePort` node (subports stored sorted, as
`setSubports` receives them). -/
structure AggregatePort where
  id : Nat
  name : String
  description : String
  systemPriority : Nat
  systemID : Mac
  minimumLinkCount : Nat
  subports : List Subport
deriving DecidableEq, Repr

/-- `ThriftConfigApplier::updateAggPort`.  The subport comparison mirrors
the source's `std::equal(origSubports.begin(), origSubports.end(),
cfgSubports.begin())`, which only compares the first `orig` many
elements. -/
def updateAggPort (origAggPort : AggregatePort) (cfg : CfgAggregatePort)
    (lacp : Option CfgLacp) (platformMac : Mac) :
    Except Err (Option AggregatePort) :=
  if origAggPort.id ≠ cfg.key then .error .checkFailed
  else
    match getSubportsSorted cfg with
    | .error e => .error e
    | .ok cfgSubports =>
        let sys := getSystemLacpConfig lacp platformMac
        match computeMinimumLinkCount cfg with
        | .error e => .error e
        | .ok cfgMinLinkCount =>
            if origAggPort.name == cfg.name &&
               origAggPort.description == cfg.description &&
               origAggPort.systemPriority == sys.2 &&
               origAggPort.systemID == sys.1 &&
               origAggPort.minimumLinkCount == cfgMinLinkCount &&
               (cfgSubports.take origAggPort.subports.length ==
                 origAggPort.subports) then
              .ok none
            else
              .ok (some
                { id := origAggPort.id
                  name := cfg.name
                  description := cfg.description
                  systemPriority := sys.2
                  systemID := sys.1
                  minimumLinkCount := cfgMinLinkCount
                  subports := cfgSubports })

/-- `ThriftConfigApplier::createAggPort`
(`AggregatePort::fromSubportRange`). -/
def createAggPort (cfg : CfgAggregatePort) (lacp : Option CfgLacp)
    (platformMac : Mac) : Except Err AggregatePort :=
  match getSubportsSorted cfg with
  | .error e => .error e
  | .ok subports =>
      let sys := getSystemLacpConfig lacp platformMac
      match computeMinimumLinkCount cfg with
      | .error e => .error e
      | .ok minLinkCount =>
          .ok
            { id := cfg.key
              name := cfg.name
              description := cfg.description
              systemPriority := sys.2
              systemID := sys.1
              minimumLinkCount := minLinkCount
              subports := subports }

/-- The loop of `ThriftConfigApplier::updateAggregatePorts`, carrying
`changed` and `numExistingProcessed`. -/
def updateAggPortsLoop (origAggPorts : NatMap AggregatePort)
    (lacp : Option CfgLacp) (platformMac : Mac) :
    List CfgAggregatePort → NatMap AggregatePort → Bool → Nat →
    Except Err (NatMap AggregatePort × Bool × Nat)
  | [], acc, ch, np => .ok (acc, ch, np)
  | pc :: rest, acc, ch, np =>
    match nmFind pc.key origAggPorts with
    | some origAggPort =>
        match updateAggPort origAggPort pc lacp platformMac with
        | .error e => .error e
        | .ok newAggPort =>
            match updateMap acc pc.key origAggPort newAggPort with
            | .error e => .error e
            | .ok r =>
                updateAggPortsLoop origAggPorts lacp platformMac rest r.1
                  (ch || r.2) (np + 1)
    | none =>
        match createAggPort pc lacp platformMac with
        | .error e => .error e
        | .ok newAggPort =>
            match updateMap acc pc.key newAggPort (some newAggPort) with
            | .error e => .error e
            | .ok r =>
                updateAggPortsLoop origAggPorts lacp platformMac rest r.1
                  (ch || r.2) np

/-- `ThriftConfigApplier::updateAggregatePorts`. -/
def updateAggregatePorts (origAggPorts : NatMap AggregatePort)
    (cfgAggPorts : List CfgAggregatePort) (lacp : Option CfgLacp)
    (platformMac : Mac) : Except Err (Option (NatMap AggregatePort)) :=
  match updateAggPortsLoop origAggPorts lacp platformMac cfgAggPorts []
      false 0 with
  | .error e => .error e
  | .ok r =>
      if r.2.1 || (r.2.2 != origAggPorts.length) then .ok (some r.1)
      else .ok none

/-! ### VLANs -/

/-- One `cfg.vlanPorts` entry. -/
structure CfgVlanPort where
  vlanID : Nat
  logicalPort : Nat
  emitTags : Bool
deriving DecidableEq, Repr

/-- `ThriftConfigApplier::processVlanPorts`: build the bidirectional
port↔VLAN membership; a duplicate (port, VLAN) pair fails on either insert
(the second "should never fail if the first insert succeeded"). -/
def processVlanPortsLoop :
    List CfgVlanPort → NatMap (NatMap Bool) → NatMap (NatMap Bool) →
    Except Err (NatMap (NatMap Bool) × NatMap (NatMap Bool))
  | [], pv, vp => .ok (pv, vp)
  | vpc :: rest, pv, vp =>
    let pm := (nmFind vpc.logicalPort pv).getD []
    let r1 := nmEmplace vpc.vlanID vpc.emitTags pm
    if r1.2 = false then
      .error (.duplicateVlanPort vpc.logicalPort vpc.vlanID)
    else
      let vm := (nmFind vpc.vlanID vp).getD []
      let r2 := nmEmplace vpc.logicalPort vpc.emitTags vm
      if r2.2 = false then
        .error (.duplicateVlanPort vpc.logicalPort vpc.vlanID)
      else
        processVlanPortsLoop rest (nmSet vpc.logicalPort r1.1 pv)
          (nmSet vpc.vlanID r2.1 vp)

def processVlanPorts (l : List CfgVlanPort) :
    Except Err (NatMap (NatMap Bool) × NatMap (NatMap Bool)) :=
  processVlanPortsLoop l [] []

/-- Injective byte encoding of a MAC, the sort key for override maps. -/
def macKey (m : Mac) : Nat :=
  ((((m.b0 * 256 + m.b1) * 256 + m.b2) * 256 + m.b3) * 256 + m.b4) * 256 +
    m.b5

/-- `cfg::Vlan`.  The DHCP override maps hold already-parsed MAC → IP
pairs: the strict-parse failure path (`InvalidDhcpOverride`) concerns the
wire format, which the spec scopes out, and no claim touches it. -/
structure CfgVlan where
  id : Nat
  name : String
  intfID : Option Nat
  dhcpRelayAddressV4 : Option Nat
  dhcpRelayAddressV6 : Option Nat
  dhcpRelayOverridesV4 : List (Mac × Nat)
  dhcpRelayOverridesV6 : List (Mac × Nat)
deriving DecidableEq, Repr

/-- One ARP/NDP response-table value. -/
structure NeighborResponseEntry where
  mac : Mac
  interfaceID : Nat
deriving DecidableEq, Repr

/-- The state-tree `Vlan` node. -/
structure Vlan where
  id : Nat
  name : String
  intfID : Nat
  ports : NatMap Bool
  dhcpV4Relay : Nat
  dhcpV6Relay : Nat
  dhcpV4Overrides : NatMap (Mac × Nat)
  dhcpV6Overrides : NatMap (Mac × Nat)
  arpTable : NatMap (IPAddr × NeighborResponseEntry)
  ndpTable : NatMap (IPAddr × NeighborResponseEntry)
deriving DecidableEq, Repr

/-- Build an override map (`map[mac] = ip`, last occurrence wins). -/
def buildOverrideMap (l : List (Mac × Nat)) : NatMap (Mac × Nat) :=
  l.foldl (fun m e => nmSet (macKey e.1) e m) []

/-- `ThriftConfigApplier::updateDhcpOverrides` (mutation of the clone is
modelled by returning the updated VLAN plus the `changed` flag). -/
def updateDhcpOverrides (vlan : Vlan) (config : CfgVlan) : Vlan × Bool :=
  let newV4 := buildOverrideMap config.dhcpRelayOverridesV4
  let newV6 := buildOverrideMap config.dhcpRelayOverridesV6
  let ch := (vlan.dhcpV4Overrides != newV4) || (vlan.dhcpV6Overrides != newV6)
  ({ vlan with dhcpV4Overrides := newV4, dhcpV6Overrides := newV6 }, ch)

/-- The table-building loop of `updateNeighborResponseTables`: one
`(ip → (mac, interface))` entry per VLAN-index address, split by address
family. -/
def buildNeighborTables (vlanID : Nat)
    (vlanIntfs : NatMap VlanInterfaceInfo) :
    NatMap (IPAddr × NeighborResponseEntry) ×
      NatMap (IPAddr × NeighborResponseEntry) :=
  match nmFind vlanID vlanIntfs with
  | none => ([], [])
  | some entry =>
      entry.addresses.foldl (fun acc kv =>
        let ip := kv.2.1
        let e : NeighborResponseEntry := ⟨kv.2.2.mac, kv.2.2.interfaceID⟩
        if ip.isV4 then ((nmEmplace (ipKey ip) (ip, e) acc.1).1, acc.2)
        else (acc.1, (nmEmplace (ipKey ip) (ip, e) acc.2).1)) ([], [])

/-- `ThriftConfigApplier::updateNeighborResponseTables`. -/
def updateNeighborResponseTables (vlan : Vlan) (config : CfgVlan)
    (vlanIntfs : NatMap VlanInterfaceInfo) : Vlan × Bool :=
  let t := buildNeighborTables config.id vlanIntfs
  let ch := (vlan.arpTable != t.1) || (vlan.ndpTable != t.2)
  ({ vlan with arpTable := t.1, ndpTable := t.2 }, ch)

/-- The transitional interface-id resolution shared by `createVlan` and
`updateVlan`: the config field when present, else the first interface of
the VLAN-interface index, else 0. -/
def resolveVlanIntfID (config : CfgVlan)
    (vlanIntfs : NatMap VlanInterfaceInfo) : Nat :=
  match config.intfID with
  | some i => i
  | none =>
      match nmFind config.id vlanIntfs with
      | some entry =>
          match entry.interfaces with
          | i :: _ => i
          | [] => 0
      | none => 0

/-- `ThriftConfigApplier::createVlan`.  The `Vlan(config, ports)`
constructor lives in `fboss/agent/state/Vlan.cpp`, outside this repository —
modelled from the spec: it records id, name, member ports and the DHCP
relay addresses (defaulting to `0.0.0.0` / `::`). -/
def createVlan (config : CfgVlan) (ports : NatMap Bool)
    (vlanIntfs : NatMap VlanInterfaceInfo) : Vlan :=
  let base : Vlan :=
    { id := config.id, name := config.name, intfID := 0, ports := ports,
      dhcpV4Relay := config.dhcpRelayAddressV4.getD 0,
      dhcpV6Relay := config.dhcpRelayAddressV6.getD 0,
      dhcpV4Overrides := [], dhcpV6Overrides := [],
      arpTable := [], ndpTable := [] }
  let b1 := (updateNeighborResponseTables base config vlanIntfs).1
  let b2 := (updateDhcpOverrides b1 config).1
  { b2 with intfID := resolveVlanIntfID config vlanIntfs }

/-- `ThriftConfigApplier::updateVlan` (`none` models the `nullptr`
"no change" return; the caller guarantees the `CHECK_EQ` on ids). -/
def updateVlan (orig : Vlan) (config : CfgVlan) (ports : NatMap Bool)
    (vlanIntfs : NatMap VlanInterfaceInfo) : Option Vlan :=
  let r1 := updateNeighborResponseTables orig config vlanIntfs
  let r2 := updateDhcpOverrides r1.1 config
  let newDhcpV4Relay := config.dhcpRelayAddressV4.getD 0
  let newDhcpV6Relay := config.dhcpRelayAddressV6.getD 0
  let newIntfID := resolveVlanIntfID config vlanIntfs
  if orig.name == config.name && orig.intfID == newIntfID &&
     orig.ports == ports && orig.dhcpV4Relay == newDhcpV4Relay &&
     orig.dhcpV6Relay == newDhcpV6Relay && !r1.2 && !r2.2 then
    none
  else
    some
      { r2.1 with
        name := config.name
        intfID := newIntfID
        ports := ports
        dhcpV4Relay := newDhcpV4Relay
        dhcpV6Relay := newDhcpV6Relay }

/-- The loop of `ThriftConfigApplier::updateVlans`. -/
def updateVlansLoop (origVlans : NatMap Vlan)
    (vlanPorts : NatMap (NatMap Bool))
    (vlanIntfs : NatMap VlanInterfaceInfo) :
    List CfgVlan → NatMap Vlan → Bool → Nat →
    Except Err (NatMap Vlan × Bool × Nat)
  | [], acc, ch, np => .ok (acc, ch, np)
  | vc :: rest, acc, ch, np =>
    let ports := (nmFind vc.id vlanPorts).getD []
    match nmFind vc.id origVlans with
    | some orig =>
        match updateMap acc vc.id orig (updateVlan orig vc ports vlanIntfs)
            with
        | .error e => .error e
        | .ok r =>
            updateVlansLoop origVlans vlanPorts vlanIntfs rest r.1
              (ch || r.2) (np + 1)
    | none =>
        let newVlan := createVlan vc ports vlanIntfs
        match updateMap acc vc.id newVlan (some newVlan) with
        | .error e => .error e
        | .ok r =>
            updateVlansLoop origVlans vlanPorts vlanIntfs rest r.1
              (ch || r.2) np

/-- `ThriftConfigApplier::updateVlans`. -/
def updateVlans (origVlans : NatMap Vlan) (cfgVlans : List CfgVlan)
    (vlanPorts : NatMap (NatMap Bool))
    (vlanIntfs : NatMap VlanInterfaceInfo) :
    Except Err (Option (NatMap Vlan)) :=
  match updateVlansLoop origVlans vlanPorts vlanIntfs cfgVlans [] false 0
      with
  | .error e => .error e
  | .ok r =>
      if r.2.1 || (r.2.2 != origVlans.length) then .ok (some r.1)
      else .ok none

/-! ### Interface reconciliation -/

/-- Modelled from the spec: `Interface::kDefaultMtu` lives in
`fboss/agent/state/Interface.h`, outside this repository. -/
def kDefaultMtu : Nat := 1500

/-- `ThriftConfigApplier::getInterfaceName`. -/
def getInterfaceName (config : CfgInterface) : String :=
  config.name.getD ("Interface " ++ toString config.intfID)

/-- The value list of an address map, in canonical (key-sorted) order. -/
def addrsList (m : NatMap (IPAddr × Nat)) : List (IPAddr × Nat) :=
  m.map (·.2)

/-- `ThriftConfigApplier::createInterface`. -/
def createInterface (config : CfgInterface) (platformMac : Mac)
    (addrs : List (IPAddr × Nat)) : Interface :=
  { id := config.intfID, routerID := config.routerID,
    vlanID := config.vlanID, name := getInterfaceName config,
    mac := config.mac.getD platformMac, mtu := config.mtu.getD kDefaultMtu,
    addresses := addrs, ndp := config.ndp.getD 0,
    isVirtual := config.isVirtual,
    isStateSyncDisabled := config.isStateSyncDisabled }

/-- `ThriftConfigApplier::updateInterface` (`none` models the `nullptr`
"no change" return). -/
def updateInterface (orig : Interface) (config : CfgInterface)
    (platformMac : Mac) (addrs : List (IPAddr × Nat)) : Option Interface :=
  let ndp := config.ndp.getD 0
  let name := getInterfaceName config
  let mac := config.mac.getD platformMac
  let mtu := config.mtu.getD kDefaultMtu
  if orig.routerID == config.routerID && orig.vlanID == config.vlanID &&
     orig.name == name && orig.mac == mac && orig.addresses == addrs &&
     orig.ndp == ndp && orig.mtu == mtu &&
     orig.isVirtual == config.isVirtual &&
     orig.isStateSyncDisabled == config.isStateSyncDisabled then
    none
  else
    some
      { id := orig.id
        routerID := config.routerID
        vlanID := config.vlanID
        name := name
        mac := mac
        mtu := mtu
        addresses := addrs
        ndp := ndp
        isVirtual := config.isVirtual
        isStateSyncDisabled := config.isStateSyncDisabled }

/-- The loop of `ThriftConfigApplier::updateInterfaces`, threading the
`vlanInterfaces_` and `intfRouteTables_` members. -/
def updateInterfacesLoop (origIntfs : NatMap Interface)
    (platformMac : Mac) :
    List CfgInterface → NatMap Interface → Bool → Nat →
    NatMap VlanInterfaceInfo → IntfRouteTable →
    Except Err (NatMap Interface × Bool × Nat ×
      NatMap VlanInterfaceInfo × IntfRouteTable)
  | [], acc, ch, np, vi, rt => .ok (acc, ch, np, vi, rt)
  | ic :: rest, acc, ch, np, vi, rt =>
    match getInterfaceAddresses ic platformMac rt with
    | .error e => .error e
    | .ok r0 =>
        let addrs := addrsList r0.1
        match nmFind ic.intfID origIntfs with
        | some origIntf =>
            let newIntf := updateInterface origIntf ic platformMac addrs
            match updateVlanInterfaces vi (newIntf.getD origIntf) with
            | .error e => .error e
            | .ok vi1 =>
                match updateMap acc ic.intfID origIntf newIntf with
                | .error e => .error e
                | .ok r =>
                    updateInterfacesLoop origIntfs platformMac rest r.1
                      (ch || r.2) (np + 1) vi1 r0.2
        | none =>
            let newIntf := createInterface ic platformMac addrs
            match updateVlanInterfaces vi newIntf with
            | .error e => .error e
            | .ok vi1 =>
                match updateMap acc ic.intfID newIntf (some newIntf) with
                | .error e => .error e
                | .ok r =>
                    updateInterfacesLoop origIntfs platformMac rest r.1
                      (ch || r.2) np vi1 r0.2

/-- `ThriftConfigApplier::updateInterfaces` (also returning the two index
structures the later phases consume). -/
def updateInterfaces (origIntfs : NatMap Interface)
    (cfgIntfs : List CfgInterface) (platformMac : Mac) :
    Except Err (Option (NatMap Interface) ×
      NatMap VlanInterfaceInfo × IntfRouteTable) :=
  match updateInterfacesLoop origIntfs platformMac cfgIntfs [] false 0 [] []
      with
  | .error e => .error e
  | .ok r =>
      if r.2.1 || (r.2.2.1 != origIntfs.length) then
        .ok (some r.1, r.2.2.2)
      else .ok (none, r.2.2.2)

/-! ### Route tables (`RouteUpdater`, modelled from the spec) -/

/-- Modelled from the spec: a route's per-client payload ("a single
resolved next hop `(addr, interface, UCMP_DEFAULT_WEIGHT)` with admin
distance", or the to-CPU action of link-local routes).  `RouteUpdater`
lives in `fboss/agent/state/RouteUpdater.cpp`, outside this repository. -/
inductive RoutePayload where
  | nexthop (addr : IPAddr) (intf : Nat) (distance : Nat)
  | toCpu
deriving DecidableEq, Repr

/-- One router's route table: masked prefix → (prefix, client id →
payload).  (A structure rather than a type synonym so that instance
derivation sees through it.) -/
structure RouteTable where
  routes : NatMap ((IPAddr × Nat) × NatMap RoutePayload)
deriving DecidableEq, Repr

abbrev RouteTableMap := NatMap RouteTable

/-- The INTERFACE_ROUTE / STATIC_ROUTE client ids. -/
def interfaceRouteClient : Nat := 0

def staticRouteClient : Nat := 1

/-- Modelled from the spec: `RouteUpdater::addRoute` — insert or overwrite
the client's entry under the masked prefix. -/
def ruAddRoute (rts : RouteTableMap) (router : Nat) (addr : IPAddr)
    (len : Nat) (client : Nat) (payload : RoutePayload) : RouteTableMap :=
  let table := (nmFind router rts).getD ⟨[]⟩
  let pfx := (addr.mask len, len)
  let entry := ((nmFind (pfxKey pfx) table.routes).getD (pfx, []))
  nmSet router
    ⟨nmSet (pfxKey pfx) (pfx, nmSet client payload entry.2) table.routes⟩
    rts

/-- Modelled from the spec: `RouteUpdater::delRoute` — drop the client's
entry; prune a route left with no clients. -/
def ruDelRoute (rts : RouteTableMap) (router : Nat) (addr : IPAddr)
    (len : Nat) (client : Nat) : RouteTableMap :=
  match nmFind router rts with
  | none => rts
  | some table =>
      let pfx := (addr.mask len, len)
      match nmFind (pfxKey pfx) table.routes with
      | none => rts
      | some entry =>
          let clients2 := nmErase client entry.2
          let table2 :=
            if clients2.isEmpty then nmErase (pfxKey pfx) table.routes
            else nmSet (pfxKey pfx) (pfx, clients2) table.routes
          nmSet router ⟨table2⟩ rts

/-- The fixed `fe80::/64` network of the v6 link-local route. -/
def v6LinkLocalNet : IPAddr := .v6 (0xfe80 * 2 ^ 112)

/-- Modelled from the spec: `RouteUpdater::addLinkLocalRoutes`. -/
def ruAddLinkLocal (rts : RouteTableMap) (router : Nat) : RouteTableMap :=
  ruAddRoute rts router v6LinkLocalNet 64 interfaceRouteClient .toCpu

/-- Modelled from the spec: `RouteUpdater::delLinkLocalRoutes`. -/
def ruDelLinkLocal (rts : RouteTableMap) (router : Nat) : RouteTableMap :=
  ruDelRoute rts router v6LinkLocalNet 64 interfaceRouteClient

/-- Modelled from the spec: `RouteUpdater::updateDone` — prune routerless
tables and return the "unchanged" sentinel when nothing differs from the
tables the updater was seeded with. -/
def ruDone (orig new : RouteTableMap) : Option RouteTableMap :=
  let pruned := new.filter (fun t => !t.2.routes.isEmpty)
  if pruned == orig then none else some pruned

/-- `ThriftConfigApplier::updateInterfaceRoutes` (source lines 1253-1311):
add every new-index route, delete stale routes of previous interfaces, and
fix up the per-router v6 link-local routes.  The C++ `flat_set`s
`newToAddTables` / `oldToDeleteTables` deduplicate router ids; the repeated
adds/deletes here are idempotent on the map, which is equivalent. -/
def updateInterfaceRoutes (origRts : RouteTableMap)
    (origIntfs : NatMap Interface) (intfRoutes : IntfRouteTable) :
    Option RouteTableMap :=
  let step1 := intfRoutes.foldl (fun rts tablekv =>
      tablekv.2.foldl (fun rts entrykv =>
        ruAddRoute rts tablekv.1 entrykv.2.2.2 entrykv.2.1.2
          interfaceRouteClient
          (.nexthop entrykv.2.2.2 entrykv.2.2.1 10)) rts)
    origRts
  let step2 := origIntfs.foldl (fun rts intfkv =>
      intfkv.2.addresses.foldl (fun rts al =>
        let pfx := (al.1.mask al.2, al.2)
        let found :=
          match nmFind intfkv.2.routerID intfRoutes with
          | none => false
          | some t => (nmFind (pfxKey pfx) t).isSome
        if found then rts
        else ruDelRoute rts intfkv.2.routerID al.1 al.2
          interfaceRouteClient) rts)
    step1
  let step3 := origIntfs.foldl (fun rts intfkv =>
      if (nmFind intfkv.2.routerID intfRoutes).isSome then rts
      else ruDelLinkLocal rts intfkv.2.routerID) step2
  let step4 := intfRoutes.foldl (fun rts t => ruAddLinkLocal rts t.1) step3
  ruDone origRts step4

/-- A static route of the config (`cfg` side of the static-route diff). -/
structure StaticRoute where
  routerID : Nat
  ip : IPAddr
  len : Nat
  nhop : Nat
deriving DecidableEq, Repr

/-- Modelled from the spec: `RouteUpdater::updateStaticRoutes` "diffs
static routes between prev_config and new_config" — routes of the previous
config absent from the new one are deleted under the STATIC client id, and
every new-config route is (re)added. -/
def updateStaticRoutes (cur : RouteTableMap) (cfgRoutes prevRoutes :
    List StaticRoute) : Option RouteTableMap :=
  let afterDel := prevRoutes.foldl (fun rts r =>
      if cfgRoutes.any (fun r2 => r2.routerID == r.routerID &&
          r2.ip == r.ip && r2.len == r.len) then rts
      else ruDelRoute rts r.routerID r.ip r.len staticRouteClient) cur
  let afterAdd := cfgRoutes.foldl (fun rts r =>
      ruAddRoute rts r.routerID r.ip r.len staticRouteClient
        (.nexthop (.v4 r.nhop) 0 20)) afterDel
  ruDone cur afterAdd

/-! ### sFlow collectors, load balancers, control plane -/

structure CfgSflowCollector where
  ip : IPAddr
  port : Nat
deriving DecidableEq, Repr

/-- The `"ip:port"` identity key of a collector. -/
def sflowKey (ip : IPAddr) (port : Nat) : Nat := Nat.pair (ipKey ip) port

/-- The state-tree `SflowCollector` node (id plus socket address). -/
structure SflowCollector where
  id : Nat
  ip : IPAddr
  port : Nat
deriving DecidableEq, Repr

/-- `ThriftConfigApplier::createSflowCollector`. -/
def createSflowCollector (c : CfgSflowCollector) : SflowCollector :=
  ⟨sflowKey c.ip c.port, c.ip, c.port⟩

/-- `ThriftConfigApplier::updateSflowCollector`: compare the socket
address (`none` models the `nullptr` "no change" return). -/
def updateSflowCollector (orig : SflowCollector) (c : CfgSflowCollector) :
    Option SflowCollector :=
  let n := createSflowCollector c
  if orig.ip == n.ip && orig.port == n.port then none else some n

/-- The loop of `ThriftConfigApplier::updateSflowCollectors`. -/
def updateSflowCollectorsLoop (origCols : NatMap SflowCollector) :
    List CfgSflowCollector → NatMap SflowCollector → Bool → Nat →
    Except Err (NatMap SflowCollector × Bool × Nat)
  | [], acc, ch, np => .ok (acc, ch, np)
  | c :: rest, acc, ch, np =>
    let id := sflowKey c.ip c.port
    match nmFind id origCols with
    | some origCol =>
        match updateMap acc id origCol (updateSflowCollector origCol c) with
        | .error e => .error e
        | .ok r =>
            updateSflowCollectorsLoop origCols rest r.1 (ch || r.2) (np + 1)
    | none =>
        let n := createSflowCollector c
        match updateMap acc id n (some n) with
        | .error e => .error e
        | .ok r =>
            updateSflowCollectorsLoop origCols rest r.1 (ch || r.2) np

/-- `ThriftConfigApplier::updateSflowCollectors`. -/
def updateSflowCollectors (origCols : NatMap SflowCollector)
    (cfgCols : List CfgSflowCollector) :
    Except Err (Option (NatMap SflowCollector)) :=
  match updateSflowCollectorsLoop origCols cfgCols [] false 0 with
  | .error e => .error e
  | .ok r =>
      if r.2.1 || (r.2.2 != origCols.length) then .ok (some r.1)
      else .ok none

/-- Modelled from the spec: a load balancer is "opaque to this spec beyond
identity diff". -/
structure LoadBalancer where
  id : Nat
  payload : Nat
deriving DecidableEq, Repr

/-- Modelled from the spec: `LoadBalancerConfigApplier::updateLoadBalancers`
("set-diff by identity id"; lives in
`fboss/agent/LoadBalancerConfigApplier.cpp`, outside this repository). -/
def updateLoadBalancers (orig : NatMap LoadBalancer)
    (cfgLBs : List LoadBalancer) : Option (NatMap LoadBalancer) :=
  let newMap := cfgLBs.foldl (fun m lb => (nmEmplace lb.id lb m).1) []
  if newMap == orig then none else some newMap

/-- `ThriftConfigApplier::updateControlPlane`: a stub that never reports a
change. -/
def updateControlPlane : Option Unit := none

/-! ### The switch config, switch state, and the top-level `run` -/

/-- `cfg::SwitchConfig` (the fields the reconciler consumes). -/
structure SwitchConfig where
  ports : List CfgPort
  vlans : List CfgVlan
  vlanPorts : List CfgVlanPort
  interfaces : List CfgInterface
  aggregatePorts : List CfgAggregatePort
  acls : List CfgAclEntry
  globalEgressTrafficPolicy : Option TrafficPolicyConfig
  sFlowCollectors : List CfgSflowCollector
  loadBalancers : List LoadBalancer
  lacp : Option CfgLacp
  staticRoutes : List StaticRoute
  defaultVlan : Nat
  arpAgerInterval : Nat
  arpTimeoutSeconds : Nat
  maxNeighborProbes : Nat
  staleEntryInterval : Nat
  dhcpRelaySrcOverrideV4 : Option Nat
  dhcpRelaySrcOverrideV6 : Option Nat
  dhcpReplySrcOverrideV4 : Option Nat
  dhcpReplySrcOverrideV6 : Option Nat
deriving DecidableEq, Repr

/-- The immutable `SwitchState` tree (the parts the reconciler touches). -/
structure SwitchState where
  ports : NatMap Port
  aggPorts : NatMap AggregatePort
  vlans : NatMap Vlan
  intfs : NatMap Interface
  acls : List (String × AclEntry)
  sflowCollectors : NatMap SflowCollector
  loadBalancers : NatMap LoadBalancer
  routeTables : RouteTableMap
  defaultVlan : Nat
  arpAgerInterval : Nat
  arpTimeout : Nat
  ndpTimeout : Nat
  maxNeighborProbes : Nat
  staleEntryInterval : Nat
  dhcpV4RelaySrc : Nat
  dhcpV6RelaySrc : Nat
  dhcpV4ReplySrc : Nat
  dhcpV6ReplySrc : Nat
deriving DecidableEq, Repr

/-- The `Platform` collaborator: supplies `getLocalMac()`. -/
structure Platform where
  localMac : Mac
deriving DecidableEq, Repr

/-- The final cross-component validation loop of `run` (source lines
322-338): every VLAN referenced by the interface index must exist, and a
VLAN other than the (possibly just-updated) default VLAN may carry at most
one interface. -/
def validateVlanIntfs : List (Nat × VlanInterfaceInfo) → NatMap Vlan →
    Nat → Except Err Unit
  | [], _, _ => .ok ()
  | (vlan, info) :: rest, vlans, cpuVlan =>
    if (nmFind vlan vlans).isNone then
      .error (.missingVlan (info.interfaces.headD 0) vlan)
    else if 1 < info.interfaces.length ∧ vlan ≠ cpuVlan then
      .error (.vlanMultiInterface vlan info.interfaces.length)
    else validateVlanIntfs rest vlans cpuVlan

set_option maxHeartbeats 2000000 in
/-- `ThriftConfigApplier::run`: clone the previous state, run the component
reconcilers in the fixed source order, fold in the global scalars, perform
the final validations, and return the new state iff anything changed
(`none` models the `nullptr` "no change" return of `applyThriftConfig`). -/
def run (orig : SwitchState) (cfg : SwitchConfig) (platform : Platform)
    (prevCfg : SwitchConfig) : Except Err (Option SwitchState) := do
  let changed := updateControlPlane.isSome
  let pvvp ← processVlanPorts cfg.vlanPorts
  let aclsR ← updateAcls orig.acls cfg.acls cfg.globalEgressTrafficPolicy
  let ns : SwitchState :=
    match aclsR with
    | some a => { orig with acls := a }
    | none => orig
  let changed := changed || aclsR.isSome
  let portsR ← updatePorts orig.ports cfg.ports pvvp.1
  let ns := match portsR with
    | some p => { ns with ports := p }
    | none => ns
  let changed := changed || portsR.isSome
  let aggR ← updateAggregatePorts orig.aggPorts cfg.aggregatePorts cfg.lacp
    platform.localMac
  let ns := match aggR with
    | some a => { ns with aggPorts := a }
    | none => ns
  let changed := changed || aggR.isSome
  let intfR ← updateInterfaces orig.intfs cfg.interfaces platform.localMac
  let ns := match intfR.1 with
    | some i => { ns with intfs := i }
    | none => ns
  let changed := changed || intfR.1.isSome
  let vlansR ← updateVlans orig.vlans cfg.vlans pvvp.2 intfR.2.1
  let ns := match vlansR with
    | some v => { ns with vlans := v }
    | none => ns
  let changed := changed || vlansR.isSome
  let irR := updateInterfaceRoutes orig.routeTables orig.intfs intfR.2.2
  let ns := match irR with
    | some t => { ns with routeTables := t }
    | none => ns
  let changed := changed || irR.isSome
  let srR := updateStaticRoutes (irR.getD orig.routeTables) cfg.staticRoutes
    prevCfg.staticRoutes
  let ns := match srR with
    | some t => { ns with routeTables := t }
    | none => ns
  let changed := changed || srR.isSome
  let ns ←
    if orig.defaultVlan != cfg.defaultVlan then
      if (nmFind cfg.defaultVlan ns.vlans).isNone then
        Except.error (.defaultVlanMissing cfg.defaultVlan)
      else pure { ns with defaultVlan := cfg.defaultVlan }
    else pure ns
  let changed := changed || (orig.defaultVlan != cfg.defaultVlan)
  let _ ← validateVlanIntfs intfR.2.1 ns.vlans ns.defaultVlan
  let ns := if orig.arpAgerInterval != cfg.arpAgerInterval then
      { ns with arpAgerInterval := cfg.arpAgerInterval } else ns
  let changed := changed || (orig.arpAgerInterval != cfg.arpAgerInterval)
  let ns := if orig.arpTimeout != cfg.arpTimeoutSeconds then
      { ns with
        arpTimeout := cfg.arpTimeoutSeconds
        ndpTimeout := cfg.arpTimeoutSeconds }
    else ns
  let changed := changed || (orig.arpTimeout != cfg.arpTimeoutSeconds)
  let ns := if orig.maxNeighborProbes != cfg.maxNeighborProbes then
      { ns with maxNeighborProbes := cfg.maxNeighborProbes } else ns
  let changed := changed || (orig.maxNeighborProbes != cfg.maxNeighborProbes)
  let newDhcpV4RelaySrc := cfg.dhcpRelaySrcOverrideV4.getD 0
  let ns := if orig.dhcpV4RelaySrc != newDhcpV4RelaySrc then
      { ns with dhcpV4RelaySrc := newDhcpV4RelaySrc } else ns
  let changed := changed || (orig.dhcpV4RelaySrc != newDhcpV4RelaySrc)
  let newDhcpV6RelaySrc := cfg.dhcpRelaySrcOverrideV6.getD 0
  let ns := if orig.dhcpV6RelaySrc != newDhcpV6RelaySrc then
      { ns with dhcpV6RelaySrc := newDhcpV6RelaySrc } else ns
  let changed := changed || (orig.dhcpV6RelaySrc != newDhcpV6RelaySrc)
  let newDhcpV4ReplySrc := cfg.dhcpReplySrcOverrideV4.getD 0
  let ns := if orig.dhcpV4ReplySrc != newDhcpV4ReplySrc then
      { ns with dhcpV4ReplySrc := newDhcpV4ReplySrc } else ns
  let changed := changed || (orig.dhcpV4ReplySrc != newDhcpV4ReplySrc)
  let newDhcpV6ReplySrc := cfg.dhcpReplySrcOverrideV6.getD 0
  let ns := if orig.dhcpV6ReplySrc != newDhcpV6ReplySrc then
      { ns with dhcpV6ReplySrc := newDhcpV6ReplySrc } else ns
  let changed := changed || (orig.dhcpV6ReplySrc != newDhcpV6ReplySrc)
  let ns := if orig.staleEntryInterval != cfg.staleEntryInterval then
      { ns with staleEntryInterval := cfg.staleEntryInterval } else ns
  let changed := changed || (orig.staleEntryInterval != cfg.staleEntryInterval)
  let sfR ← updateSflowCollectors orig.sflowCollectors cfg.sFlowCollectors
  let ns := match sfR with
    | some s => { ns with sflowCollectors := s }
    | none => ns
  let changed := changed || sfR.isSome
  let lbR := updateLoadBalancers orig.loadBalancers cfg.loadBalancers
  let ns := match lbR with
    | some l => { ns with loadBalancers := l }
    | none => ns
  let changed := changed || lbR.isSome
  if changed then .ok (some ns) else .ok none

/-- `ok (some _)`: the reconciler succeeded and reported a change. -/
def okSome {α : Type} (r : Except Err (Option α)) : Bool :=
  r.toOption.join.isSome

/-- The spec's top-level change condition — "at least one component
reconciler reported a change or at least one global scalar (default VLAN,
ARP ager interval, ARP/NDP timeout, max neighbor probes, DHCP relay/reply
source overrides, stale entry interval) differs from the previous state" —
written from the spec's words over the same component functions `run`
calls, to be compared with `run`'s own result. -/
def specAnyChange (orig : SwitchState) (cfg : SwitchConfig)
    (platform : Platform) (prevCfg : SwitchConfig) : Bool :=
  match processVlanPorts cfg.vlanPorts with
  | .error _ => false
  | .ok pvvp =>
    match updateInterfaces orig.intfs cfg.interfaces platform.localMac with
    | .error _ => false
    | .ok intfR =>
      let irR := updateInterfaceRoutes orig.routeTables orig.intfs intfR.2.2
      updateControlPlane.isSome ||
      okSome (updateAcls orig.acls cfg.acls
        cfg.globalEgressTrafficPolicy) ||
      okSome (updatePorts orig.ports cfg.ports pvvp.1) ||
      okSome (updateAggregatePorts orig.aggPorts cfg.aggregatePorts
        cfg.lacp platform.localMac) ||
      intfR.1.isSome ||
      okSome (updateVlans orig.vlans cfg.vlans pvvp.2 intfR.2.1) ||
      irR.isSome ||
      (updateStaticRoutes (irR.getD orig.routeTables) cfg.staticRoutes
        prevCfg.staticRoutes).isSome ||
      (orig.defaultVlan != cfg.defaultVlan) ||
      (orig.arpAgerInterval != cfg.arpAgerInterval) ||
      (orig.arpTimeout != cfg.arpTimeoutSeconds) ||
      (orig.maxNeighborProbes != cfg.maxNeighborProbes) ||
      (orig.dhcpV4RelaySrc != cfg.dhcpRelaySrcOverrideV4.getD 0) ||
      (orig.dhcpV6RelaySrc != cfg.dhcpRelaySrcOverrideV6.getD 0) ||
      (orig.dhcpV4ReplySrc != cfg.dhcpReplySrcOverrideV4.getD 0) ||
      (orig.dhcpV6ReplySrc != cfg.dhcpReplySrcOverrideV6.getD 0) ||
      (orig.staleEntryInterval != cfg.staleEntryInterval) ||
      okSome (updateSflowCollectors orig.sflowCollectors
        cfg.sFlowCollectors) ||
      (updateLoadBalancers orig.loadBalancers cfg.loadBalancers).isSome

/-- The spec's second-apply expression
`apply(apply(s, c).unwrap_or(s), c)` (property §8.1). -/
def specApplySecond (s : SwitchState) (cfg : SwitchConfig) (pl : Platform)
    (prevCfg : SwitchConfig) : Except Err (Option SwitchState) :=
  match run s cfg pl prevCfg with
  | .ok (some s1) => run s1 cfg pl cfg
  | .ok none => run s cfg pl cfg
  | .error e => .error e

/-- `Err.duplicateVlanPort`-shaped failure. -/
def isDupVlanPortErr {α : Type} : Except Err α → Bool
  | .error (.duplicateVlanPort _ _) => true
  | _ => false

/-- The all-empty previous state used by the concrete scenarios. -/
def emptyState : SwitchState :=
  { ports := [], aggPorts := [], vlans := [], intfs := [], acls := [],
    sflowCollectors := [], loadBalancers := [], routeTables := [],
    defaultVlan := 0, arpAgerInterval := 0, arpTimeout := 0,
    ndpTimeout := 0, maxNeighborProbes := 0, staleEntryInterval := 0,
    dhcpV4RelaySrc := 0, dhcpV6RelaySrc := 0, dhcpV4ReplySrc := 0,
    dhcpV6ReplySrc := 0 }

/-- The all-empty config used by the concrete scenarios. -/
def emptyConfig : SwitchConfig :=
  { ports := [], vlans := [], vlanPorts := [], interfaces := [],
    aggregatePorts := [], acls := [], globalEgressTrafficPolicy := none,
    sFlowCollectors := [], loadBalancers := [], lacp := none,
    staticRoutes := [], defaultVlan := 0, arpAgerInterval := 0,
    arpTimeoutSeconds := 0, maxNeighborProbes := 0,
    staleEntryInterval := 0, dhcpRelaySrcOverrideV4 := none,
    dhcpRelaySrcOverrideV6 := none, dhcpReplySrcOverrideV4 := none,
    dhcpReplySrcOverrideV6 := none }

/-- The C2 config: two DENY acls sharing the name "X" (the `updateAcls`
emission silently deduplicates them in the resulting map, but re-counts
both on every subsequent apply). -/
def dupAclConfig : SwitchConfig :=
  { emptyConfig with
    acls := [{ s5AclB with name := "X" }, { s5AclB with name := "X" }] }

/-- A config whose `vlanPorts` lists the (port 1, VLAN 10) pair twice. -/
def dupVlanPortConfig : SwitchConfig :=
  { emptyConfig with
    vlanPorts := [⟨10, 1, false⟩, ⟨10, 1, false⟩] }

/-- C9 counterexample: with 300 member ports and fraction 1 (inside `(0,1]`),
the `uint8_t` result is `ceil(1 × 300) mod 256 = 44`, not
`ceil(1 × 300) = 300`, so the computed count does not equal the ceiling. -/
theorem minLinkCount_overflow_cex :
    computeMinimumLinkCount
      { key := 1, name := "po1", description := "",
        memberPorts := List.replicate 300 ⟨1, 0, 0, 0⟩,
        minimumCapacity := .linkPercentage 1 } = .ok 44 ∧
    (⌈(1 : ℚ) * ((300 : Nat) : ℚ)⌉ : ℤ) = 300 ∧ (44 : Nat) ≠ 300 := by
  have hl : (List.replicate 300
      (⟨1, 0, 0, 0⟩ : CfgAggregatePortMember)).length = 300 :=
    List.length_replicate 300 _
  have hceil : (⌈(1 : ℚ) * ((300 : Nat) : ℚ)⌉ : ℤ) = 300 := by norm_num
  refine ⟨?_, hceil, by decide⟩
  simp only [computeMinimumLinkCount, hl, hceil]
  decide

/-- C9 (amended): in link-count mode with a count in `[1, 127]` (the range of
a thrift `byte` passing the `CHECK_GE`), the result is the configured count;
in fractional mode with fraction in `(0,1]`, a successfully computed result
equals `ceil(fraction × member_count) mod 256`, equals the exact ceiling
whenever that fits in a byte, and is at least 1 whenever `member_count > 0`. -/
theorem computeMinimumLinkCount_spec (cfg : CfgAggregatePort) :
    (∀ n : Int, cfg.minimumCapacity = .linkCount n → 1 ≤ n → n ≤ 127 →
      computeMinimumLinkCount cfg = .ok n.toNat) ∧
    (∀ f : ℚ, cfg.minimumCapacity = .linkPercentage f → 0 < f → f ≤ 1 →
      ∀ v : Nat, computeMinimumLinkCount cfg = .ok v →
        v = (⌈f * (cfg.memberPorts.length : ℚ)⌉).toNat % 256 ∧
        ((⌈f * (cfg.memberPorts.length : ℚ)⌉).toNat ≤ 255 →
          v = (⌈f * (cfg.memberPorts.length : ℚ)⌉).toNat) ∧
        (0 < cfg.memberPorts.length → 1 ≤ v)) := by
  constructor
  · intro n hcap h1 h127
    have hn : ¬ n < 1 := not_lt.mpr h1
    have hmod : n.toNat % 256 = n.toNat := by
      apply Nat.mod_eq_of_lt
      omega
    simp [computeMinimumLinkCount, hcap, hn, hmod]
  · intro f hcap hpos hle v hok
    have h0 : ¬ f ≤ 0 := not_le.mpr hpos
    have h1 : ¬ 1 < f := not_lt.mpr hle
    simp only [computeMinimumLinkCount, hcap, h0, if_false, h1] at hok
    by_cases hguard :
        cfg.memberPorts.length ≠ 0 ∧
          (⌈f * (cfg.memberPorts.length : ℚ)⌉).toNat % 256 < 1
    · simp [hguard] at hok
    · simp only [hguard, if_false] at hok
      cases hok
      refine ⟨rfl, fun hsmall => Nat.mod_eq_of_lt (by omega), fun hm => ?_⟩
      have hne : cfg.memberPorts.length ≠ 0 := Nat.pos_iff_ne_zero.mp hm
      rcases not_and_or.mp hguard with h | h
      · exact absurd hne h
      · omega

/-- C9 witness: the amended theorem applied at concrete inputs for both
modes (absolute count 5; fraction 1/2 over three members, `ceil(3/2) = 2`). -/
theorem computeMinimumLinkCount_spec_w :
    computeMinimumLinkCount
      { key := 3, name := "po3", description := "",
        memberPorts := [⟨1, 0, 0, 0⟩],
        minimumCapacity := .linkCount 5 } = .ok ((5 : Int).toNat) ∧
    ((2 : Nat) =
      (⌈(1 / 2 : ℚ) * ((3 : Nat) : ℚ)⌉).toNat % 256 ∧
     ((⌈(1 / 2 : ℚ) * ((3 : Nat) : ℚ)⌉).toNat ≤ 255 →
       (2 : Nat) = (⌈(1 / 2 : ℚ) * ((3 : Nat) : ℚ)⌉).toNat) ∧
     (0 < (3 : Nat) → 1 ≤ (2 : Nat))) := by
  have hceil : (⌈(1 / 2 : ℚ) * ((3 : Nat) : ℚ)⌉ : ℤ) = 2 := by
    rw [show ((1 / 2 : ℚ) * ((3 : Nat) : ℚ)) = 3 / 2 by norm_num]
    norm_num [Int.ceil_eq_iff]
  constructor
  · exact (computeMinimumLinkCount_spec
      { key := 3, name := "po3", description := "",
        memberPorts := [⟨1, 0, 0, 0⟩],
        minimumCapacity := .linkCount 5 }).1 5 rfl (by norm_num) (by norm_num)
  · exact (computeMinimumLinkCount_spec
      { key := 7, name := "po7", description := "",
        memberPorts := [⟨1, 0, 0, 0⟩, ⟨2, 0, 0, 0⟩, ⟨3, 0, 0, 0⟩],
        minimumCapacity := .linkPercentage (1 / 2) }).2
      (1 / 2) rfl (by norm_num) (by norm_num) 2
      (by have h32 : (⌈(3 / 2 : ℚ)⌉ : ℤ) = 2 := by norm_num [Int.ceil_eq_iff]
          simp only [computeMinimumLinkCount]
          norm_num [h32]
          decide)

/-- C5: reconciling one existing port queue returns the previous queue node
(`none` models C++ returning the `orig` pointer) exactly when stream type,
scheduling, weight, reserved bytes, scaling factor and AQM all match the
config values; otherwise (when the config AQM, if set, has a non-empty
congestion-detection variant) it returns a new queue carrying the configured
values, where a config field whose `__isset` flag is off keeps the previous
queue's value. -/
theorem updatePortQueue_spec (orig : PortQueue) (cfg : CfgPortQueue)
    (hid : orig.id = cfg.id) :
    (updatePortQueue orig cfg = .ok none ↔
      portQueueMatches orig cfg = true) ∧
    (portQueueMatches orig cfg = false →
      (cfg.aqmSet = true → cfg.aqm.detection ≠ none) →
      updatePortQueue orig cfg = .ok (some (portQueueMerge orig cfg))) := by
  unfold updatePortQueue
  rw [if_neg (by simp [hid])]
  constructor
  · by_cases hm : portQueueMatches orig cfg
    · simp [hm]
    · rw [if_neg (by simp [hm])]
      by_cases ha : cfg.aqmSet = true ∧ cfg.aqm.detection = none
      · simp [ha, hm]
      · simp [ha, hm]
  · intro hm ha
    rw [if_neg (by simp [hm]), if_neg (by rintro ⟨h1, h2⟩; exact ha h1 h2)]

/-- C5 witness: the theorem applied to a concrete queue and config that
differ in weight, with the unset reserved-bytes field keeping the original
value in the result. -/
theorem updatePortQueue_spec_w :
    updatePortQueue ⟨0, 1, 2, 10, 100, 3, ⟨some 1, 0⟩⟩
        ⟨0, 1, 2, 7, true, 0, false, 3, true, ⟨some 1, 0⟩, false⟩ =
      .ok (some (portQueueMerge ⟨0, 1, 2, 10, 100, 3, ⟨some 1, 0⟩⟩
        ⟨0, 1, 2, 7, true, 0, false, 3, true, ⟨some 1, 0⟩, false⟩)) :=
  (updatePortQueue_spec _ _ rfl).2 (by decide) (by decide)

theorem nmFind_insertSorted_ne {α : Type} (j k : Nat) (v : α) (m : NatMap α)
    (h : j ≠ k) : nmFind j (nmInsertSorted k v m) = nmFind j m := by
  have hk : ¬ k = j := fun h1 => h h1.symm
  induction m with
  | nil => simp [nmInsertSorted, nmFind, hk]
  | cons e t ih =>
      obtain ⟨k1, v1⟩ := e
      by_cases h1 : k < k1
      · simp [nmInsertSorted, nmFind, h1, hk]
      · simp [nmInsertSorted, nmFind, h1, ih]

theorem nmFind_insertSorted_self {α : Type} (k : Nat) (v : α) (m : NatMap α)
    (h : nmFind k m = none) : nmFind k (nmInsertSorted k v m) = some v := by
  induction m with
  | nil => simp [nmInsertSorted, nmFind]
  | cons e t ih =>
      obtain ⟨k1, v1⟩ := e
      by_cases h2 : k1 = k
      · simp [nmFind, h2] at h
      · simp only [nmFind, if_neg h2] at h
        by_cases h1 : k < k1 <;>
          simp [nmInsertSorted, nmFind, h1, h2, ih h]

theorem nmFind_emplace {α : Type} (j k : Nat) (v : α) (m : NatMap α) :
    nmFind j (nmEmplace k v m).1 =
      if j = k then some ((nmFind k m).getD v) else nmFind j m := by
  unfold nmEmplace
  cases hf : nmFind k m with
  | some w =>
      by_cases h : j = k
      · subst h
        simp [hf]
      · simp [h]
  | none =>
      by_cases h : j = k
      · subst h
        simp [hf, nmFind_insertSorted_self j v m hf]
      · simp [h, nmFind_insertSorted_ne j k v m h]

theorem nmEmplace_snd {α : Type} (k : Nat) (v : α) (m : NatMap α) :
    (nmEmplace k v m).2 = (nmFind k m).isNone := by
  unfold nmEmplace
  cases hf : nmFind k m <;> simp

theorem nmFind_isSome_iff {α : Type} (j : Nat) (m : NatMap α) :
    (nmFind j m).isSome = true ↔ ∃ e ∈ m, e.1 = j := by
  induction m with
  | nil => simp [nmFind]
  | cons e t ih =>
      obtain ⟨k1, v1⟩ := e
      by_cases h : k1 = j <;> simp [nmFind, h, ih]

theorem nmFind_some_split {α : Type} (j : Nat) (m : NatMap α) (v : α)
    (h : nmFind j m = some v) :
    ∃ l1 l2, m = l1 ++ (j, v) :: l2 ∧ ∀ e ∈ l1, e.1 ≠ j := by
  induction m with
  | nil => simp [nmFind] at h
  | cons e t ih =>
      obtain ⟨k1, v1⟩ := e
      by_cases hk : k1 = j
      · subst hk
        simp [nmFind] at h
        subst h
        exact ⟨[], t, rfl, by simp⟩
      · simp [nmFind, hk] at h
        obtain ⟨l1, l2, rfl, hl1⟩ := ih h
        exact ⟨(k1, v1) :: l1, l2, rfl, by
          intro e he
          rcases List.mem_cons.mp he with he | he
          · subst he; exact hk
          · exact hl1 e he⟩

theorem updateMap_ok {α : Type} (m : NatMap α) (id : Nat) (o : α)
    (n : Option α) (r : NatMap α × Bool) (h : updateMap m id o n = .ok r) :
    nmFind id m = none ∧ r.1 = (nmEmplace id (n.getD o) m).1 ∧
      r.2 = n.isSome := by
  cases n with
  | some x =>
      simp only [updateMap] at h
      by_cases hi : (nmEmplace id x m).2
      · rw [if_pos hi] at h
        cases h
        have := nmEmplace_snd id x m
        rw [hi] at this
        exact ⟨Option.isNone_iff_eq_none.mp this.symm, rfl, rfl⟩
      · rw [if_neg hi] at h
        cases h
  | none =>
      simp only [updateMap] at h
      by_cases hi : (nmEmplace id o m).2
      · rw [if_pos hi] at h
        cases h
        have := nmEmplace_snd id o m
        rw [hi] at this
        exact ⟨Option.isNone_iff_eq_none.mp this.symm, rfl, rfl⟩
      · rw [if_neg hi] at h
        cases h

theorem updateMap_find {α : Type} (m : NatMap α) (id : Nat) (o : α)
    (n : Option α) (r : NatMap α × Bool) (h : updateMap m id o n = .ok r)
    (j : Nat) :
    nmFind j r.1 = if j = id then some (n.getD o) else nmFind j m := by
  obtain ⟨hfe, hr1, _⟩ := updateMap_ok m id o n r h
  rw [hr1, nmFind_emplace, hfe]
  simp

theorem updatePortsCfgLoop_ok (origPorts : NatMap Port)
    (pv : NatMap (NatMap Bool)) (l : List CfgPort) :
    ∀ (acc : NatMap Port) (ch : Bool) (r : NatMap Port × Bool),
      updatePortsCfgLoop origPorts pv l acc ch = .ok r →
      (∀ p ∈ l, (nmFind p.logicalID origPorts).isSome = true) ∧
      (∀ j, (nmFind j r.1).isSome = true ↔
        (nmFind j acc).isSome = true ∨ j ∈ l.map (·.logicalID)) ∧
      (∀ j, (∀ p ∈ l, p.logicalID ≠ j) → nmFind j r.1 = nmFind j acc) := by
  induction l with
  | nil =>
      intro acc ch r h
      simp only [updatePortsCfgLoop, Except.ok.injEq] at h
      subst h
      refine ⟨by simp, by simp, by simp⟩
  | cons p rest ih =>
      intro acc ch r h
      rw [updatePortsCfgLoop] at h
      cases hf : nmFind p.logicalID origPorts with
      | none => rw [hf] at h; cases h
      | some op =>
          rw [hf] at h
          simp only [bind, Except.bind] at h
          cases hnp : updatePort op p pv with
          | error e => rw [hnp] at h; cases h
          | ok newPort =>
              rw [hnp] at h
              dsimp only at h
              cases hum : updateMap acc p.logicalID op newPort with
              | error e => rw [hum] at h; cases h
              | ok r2 =>
                  rw [hum] at h
                  dsimp only at h
                  obtain ⟨ih1, ih2, ih3⟩ := ih r2.1 (ch || r2.2) r h
                  have hfind := updateMap_find acc p.logicalID op newPort r2 hum
                  refine ⟨?_, ?_, ?_⟩
                  · intro q hq
                    rcases List.mem_cons.mp hq with rfl | hq
                    · simp [hf]
                    · exact ih1 q hq
                  · intro j
                    rw [ih2 j, hfind j]
                    simp only [List.map_cons, List.mem_cons]
                    by_cases hj : j = p.logicalID
                    · simp [hj]
                    · simp only [hj, if_false, false_or]
                  · intro j hj
                    have hjp : p.logicalID ≠ j := hj p (List.mem_cons_self p rest)
                    rw [ih3 j (fun q hq => hj q (List.mem_cons_of_mem p hq)),
                      hfind j, if_neg (fun he => hjp he.symm)]

theorem updatePortsOrigLoop_ok (pv : NatMap (NatMap Bool))
    (l : List (Nat × Port)) :
    ∀ (acc : NatMap Port) (ch : Bool) (r : NatMap Port × Bool),
      updatePortsOrigLoop pv l acc ch = .ok r →
      (∀ j, (nmFind j r.1).isSome = true ↔
        (nmFind j acc).isSome = true ∨ j ∈ l.map (·.1)) ∧
      (∀ j x, nmFind j acc = some x → nmFind j r.1 = some x) ∧
      (∀ j o l1 l2, l = l1 ++ (j, o) :: l2 → (∀ e ∈ l1, e.1 ≠ j) →
        nmFind j acc = none →
        ∃ u, updatePort o (defaultPortConfig j) pv = .ok u ∧
          nmFind j r.1 = some (u.getD o)) := by
  induction l with
  | nil =>
      intro acc ch r h
      simp only [updatePortsOrigLoop, Except.ok.injEq] at h
      subst h
      refine ⟨by simp, by simp, ?_⟩
      intro j o l1 l2 hsplit
      exact absurd hsplit (by simp)
  | cons e rest ih =>
      intro acc ch r h
      obtain ⟨k, op⟩ := e
      rw [updatePortsOrigLoop] at h
      by_cases hacc : (nmFind k acc).isSome = true
      · rw [if_pos hacc] at h
        obtain ⟨ih1, ih2, ih3⟩ := ih acc ch r h
        refine ⟨?_, ih2, ?_⟩
        · intro j
          rw [ih1 j]
          simp only [List.map_cons, List.mem_cons]
          by_cases hj : j = k
          · subst hj
            simp only [hacc, true_or, true_iff]
          · tauto
        · intro j o l1 l2 hsplit hl1 hjacc
          cases l1 with
          | nil =>
              simp at hsplit
              obtain ⟨⟨hk, ho⟩, hrest⟩ := hsplit
              subst hk
              rw [hjacc] at hacc
              simp at hacc
          | cons e1 l1t =>
              simp only [List.cons_append, List.cons.injEq] at hsplit
              obtain ⟨he1, hrest⟩ := hsplit
              exact ih3 j o l1t l2 hrest
                (fun q hq => hl1 q (by simp [hq])) hjacc
      · rw [if_neg hacc] at h
        simp only [bind, Except.bind] at h
        cases hnp : updatePort op (defaultPortConfig k) pv with
        | error e1 => rw [hnp] at h; cases h
        | ok newPort =>
            rw [hnp] at h
            dsimp only at h
            cases hum : updateMap acc k op newPort with
            | error e1 => rw [hum] at h; cases h
            | ok r2 =>
                rw [hum] at h
                dsimp only at h
                obtain ⟨ih1, ih2, ih3⟩ := ih r2.1 (ch || r2.2) r h
                have hfind := updateMap_find acc k op newPort r2 hum
                refine ⟨?_, ?_, ?_⟩
                · intro j
                  rw [ih1 j, hfind j]
                  simp only [List.map_cons, List.mem_cons]
                  by_cases hj : j = k
                  · simp [hj]
                  · simp only [hj, if_false, false_or]
                · intro j x hx
                  have hj : ¬ j = k := by
                    intro he
                    subst he
                    rw [hx] at hacc
                    simp at hacc
                  exact ih2 j x (by rw [hfind j, if_neg hj]; exact hx)
                · intro j o l1 l2 hsplit hl1 hjacc
                  cases l1 with
                  | nil =>
                      simp only [List.nil_append, List.cons.injEq,
                        Prod.mk.injEq] at hsplit
                      obtain ⟨⟨hk, ho⟩, hrest⟩ := hsplit
                      subst hk
                      subst ho
                      refine ⟨newPort, hnp, ?_⟩
                      exact ih2 k _ (by rw [hfind k, if_pos rfl])
                  | cons e1 l1t =>
                      simp only [List.cons_append, List.cons.injEq] at hsplit
                      obtain ⟨he1, hrest⟩ := hsplit
                      have hjk : ¬ j = k := by
                        have h5 := hl1 e1 (List.mem_cons_self e1 l1t)
                        rw [← he1] at h5
                        exact fun hh => h5 hh.symm
                      exact ih3 j o l1t l2 hrest
                        (fun q hq => hl1 q (by simp [hq]))
                        (by rw [hfind j, if_neg hjk]; exact hjacc)

/-- C4: port reconciliation preserves the port set exactly: on success every
configured port id already exists in the previous map, the realized result
(`none` meaning "carry the previous map over") has exactly the previous key
set, and every previous port with no config entry is reconciled against the
synthesized default (disabled) config; a config whose first entry names an
unknown port fails with `UnknownPort`. -/
theorem updatePorts_port_set (origPorts : NatMap Port)
    (cfgPorts : List CfgPort) (pv : NatMap (NatMap Bool)) :
    (∀ r, updatePorts origPorts cfgPorts pv = .ok r →
      (∀ p ∈ cfgPorts, (nmFind p.logicalID origPorts).isSome = true) ∧
      (∀ j, (nmFind j (r.getD origPorts)).isSome =
        (nmFind j origPorts).isSome) ∧
      (∀ res, r = some res →
        ∀ j o, nmFind j origPorts = some o →
          (∀ p ∈ cfgPorts, p.logicalID ≠ j) →
          ∃ u, updatePort o (defaultPortConfig j) pv = .ok u ∧
            nmFind j res = some (u.getD o))) ∧
    (∀ p ps, cfgPorts = p :: ps → nmFind p.logicalID origPorts = none →
      updatePorts origPorts cfgPorts pv = .error (.unknownPort p.logicalID)) := by
  constructor
  · intro r h
    rw [updatePorts] at h
    simp only [bind, Except.bind] at h
    cases h1 : updatePortsCfgLoop origPorts pv cfgPorts [] false with
    | error e => rw [h1] at h; cases h
    | ok r1 =>
        rw [h1] at h
        dsimp only at h
        cases h2 : updatePortsOrigLoop pv origPorts r1.1 r1.2 with
        | error e => rw [h2] at h; cases h
        | ok r2 =>
            rw [h2] at h
            dsimp only at h
            obtain ⟨c1, c2, c3⟩ :=
              updatePortsCfgLoop_ok origPorts pv cfgPorts [] false r1 h1
            obtain ⟨o1, o2, o3⟩ := updatePortsOrigLoop_ok pv origPorts r1.1 r1.2 r2 h2
            have hcfgsub : ∀ j, j ∈ cfgPorts.map (·.logicalID) →
                (nmFind j origPorts).isSome = true := by
              intro j hj
              obtain ⟨p, hp, hpe⟩ := List.mem_map.mp hj
              rw [← hpe]
              exact c1 p hp
            have hkeyset : ∀ j, (nmFind j r2.1).isSome =
                (nmFind j origPorts).isSome := by
              intro j
              rw [Bool.eq_iff_iff, o1 j, c2 j]
              simp only [nmFind, Option.isSome_none, false_or]
              constructor
              · rintro ((h | hj) | hj)
                · cases h
                · exact (nmFind_isSome_iff j origPorts).mpr
                    (by
                      have := hcfgsub j hj
                      exact (nmFind_isSome_iff j origPorts).mp this)
                · exact (nmFind_isSome_iff j origPorts).mpr
                    (by
                      obtain ⟨e, he, hee⟩ := List.mem_map.mp hj
                      exact ⟨e, he, hee⟩)
              · intro hj
                right
                obtain ⟨e, he, hee⟩ := (nmFind_isSome_iff j origPorts).mp hj
                exact List.mem_map.mpr ⟨e, he, hee⟩
            refine ⟨c1, ?_, ?_⟩
            · intro j
              by_cases hch : r2.2 = true
              · simp only [hch, if_true, eq_self_iff_true, Except.ok.injEq] at h
                subst h
                simpa using hkeyset j
              · simp only [hch, Bool.false_eq_true, if_false,
                  Except.ok.injEq] at h
                subst h
                simp
            · intro res hres j o hjo hnotcfg
              have hr1none : nmFind j r1.1 = none := by
                have := c3 j (fun p hp => hnotcfg p hp)
                rw [this]
                rfl
              obtain ⟨l1, l2, hsplit, hl1⟩ := nmFind_some_split j origPorts o hjo
              obtain ⟨u, hu, hru⟩ := o3 j o l1 l2 hsplit hl1 hr1none
              refine ⟨u, hu, ?_⟩
              by_cases hch : r2.2 = true
              · simp only [hch, if_true, eq_self_iff_true, Except.ok.injEq] at h
                subst h
                cases hres
                exact hru
              · simp only [hch, Bool.false_eq_true, if_false,
                  Except.ok.injEq] at h
                subst h
                cases hres
  · intro p ps hcfg hmiss
    subst hcfg
    rw [updatePorts]
    simp only [bind, Except.bind]
    rw [updatePortsCfgLoop, hmiss]

/-- C4 witness: the `UnknownPort` half of the theorem applied where the
config lists port 5 but the previous state only has port 1. -/
theorem updatePorts_port_set_w :
    updatePorts
      [(1, { id := 1, adminState := 0, ingressVlan := 0, speed := 0,
             pause := 0, sflowIngressRate := 0, sflowEgressRate := 0,
             name := "", description := "", fec := 0, queues := [],
             vlans := [] })]
      [{ logicalID := 5, state := 1, ingressVlan := 0, speed := 25000,
         pause := 0, sFlowIngressRate := 0, sFlowEgressRate := 0,
         name := "eth0", description := "", fec := 0, queues := [] }]
      [] = .error (.unknownPort 5) :=
  (updatePorts_port_set _ _ _).2 _ _ rfl (by decide)

theorem ipKey_inj {a b : IPAddr} (h : ipKey a = ipKey b) : a = b := by
  cases a with
  | v4 x =>
      cases b with
      | v4 y =>
          simp only [ipKey] at h
          have : x = y := by omega
          rw [this]
      | v6 y => simp only [ipKey] at h; omega
  | v6 x =>
      cases b with
      | v4 y => simp only [ipKey] at h; omega
      | v6 y =>
          simp only [ipKey] at h
          have : x = y := by omega
          rw [this]

theorem nmFind_replace_ne {α : Type} (j k : Nat) (v : α) (m : NatMap α)
    (h : j ≠ k) : nmFind j (nmReplace k v m) = nmFind j m := by
  induction m with
  | nil => rfl
  | cons e t ih =>
      obtain ⟨k1, v1⟩ := e
      by_cases h1 : k1 = k
      · subst h1
        have hk : ¬ k1 = j := fun hh => h hh.symm
        simp [nmReplace, nmFind, hk]
      · simp [nmReplace, nmFind, h1, ih]

theorem nmFind_replace_self {α : Type} (k : Nat) (v : α) (m : NatMap α) :
    nmFind k (nmReplace k v m) = (nmFind k m).map (fun _ => v) := by
  induction m with
  | nil => rfl
  | cons e t ih =>
      obtain ⟨k1, v1⟩ := e
      by_cases h1 : k1 = k <;> simp [nmReplace, nmFind, h1, ih]

theorem nmFind_set_self {α : Type} (k : Nat) (v : α) (m : NatMap α) :
    nmFind k (nmSet k v m) = some v := by
  unfold nmSet
  cases hf : nmFind k m with
  | none => exact nmFind_insertSorted_self k v m hf
  | some w => rw [nmFind_replace_self, hf]; rfl

theorem nmFind_set_ne {α : Type} (j k : Nat) (v : α) (m : NatMap α)
    (h : j ≠ k) : nmFind j (nmSet k v m) = nmFind j m := by
  unfold nmSet
  cases hf : nmFind k m with
  | none => exact nmFind_insertSorted_ne j k v m h
  | some w => exact nmFind_replace_ne j k v m h

theorem nmFind_emplace_preserve {α : Type} (j k : Nat) (v x : α)
    (m : NatMap α) (h : nmFind j m = some x) :
    nmFind j (nmEmplace k v m).1 = some x := by
  rw [nmFind_emplace]
  by_cases hj : j = k
  · subst hj
    rw [h]
    simp
  · rw [if_neg hj]
    exact h

theorem vlanAddrsInsert_ok (vlan : Nat) (mac : Mac) (iid : Nat)
    (l : List (IPAddr × Nat)) :
    ∀ (A A1 : NatMap (IPAddr × VlanIpInfo)),
      vlanAddrsInsert vlan mac iid l A = .ok A1 →
      (∀ key x, nmFind key A = some x → nmFind key A1 = some x) ∧
      (∀ ip k, (ip, k) ∈ l →
        ∃ p, nmFind (ipKey ip) A1 = some p ∧ p.2.mask = k ∧
          p.2.mac = mac) := by
  induction l with
  | nil =>
      intro A A1 h
      simp only [vlanAddrsInsert, Except.ok.injEq] at h
      subst h
      exact ⟨fun key x hx => hx, by simp⟩
  | cons e rest ih =>
      obtain ⟨ip, k⟩ := e
      intro A A1 h
      rw [vlanAddrsInsert] at h
      cases hf : nmFind (ipKey ip) A with
      | none =>
          rw [hf] at h
          dsimp only at h
          obtain ⟨ih1, ih2⟩ := ih _ A1 h
          constructor
          · intro key x hx
            apply ih1
            have hkey : key ≠ ipKey ip := by
              intro he
              subst he
              rw [hx] at hf
              cases hf
            rw [nmFind_insertSorted_ne _ _ _ _ hkey]
            exact hx
          · intro ip' k' hmem
            rcases List.mem_cons.mp hmem with heq | hmem
            · cases heq
              exact ⟨(ip, ⟨k, mac, iid⟩),
                ih1 _ _ (nmFind_insertSorted_self _ _ _ hf), rfl, rfl⟩
            · exact ih2 ip' k' hmem
      | some p =>
          obtain ⟨ip0, oldInfo⟩ := p
          rw [hf] at h
          dsimp only at h
          by_cases hm : oldInfo.mask ≠ k
          · rw [if_pos hm] at h; cases h
          · rw [if_neg hm] at h
            by_cases hmc : oldInfo.mac ≠ mac
            · rw [if_pos hmc] at h; cases h
            · rw [if_neg hmc] at h
              obtain ⟨ih1, ih2⟩ := ih A A1 h
              refine ⟨ih1, ?_⟩
              intro ip' k' hmem
              rcases List.mem_cons.mp hmem with heq | hmem
              · cases heq
                rw [not_not] at hm hmc
                exact ⟨(ip0, oldInfo), ih1 _ _ hf, hm, hmc⟩
              · exact ih2 ip' k' hmem

theorem vlanIntfRecord_stored (m : NatMap VlanInterfaceInfo)
    (intf : Interface) (entry : VlanInterfaceInfo)
    (m1 : NatMap VlanInterfaceInfo)
    (haddr : entry.addresses =
      ((nmFind intf.vlanID m).getD ⟨0, [], []⟩).addresses)
    (h : vlanIntfRecord m intf entry = .ok m1) :
    (∀ ip k, (ip, k) ∈ intf.addresses →
      ∃ p, nmFind (ipKey ip)
        ((nmFind intf.vlanID m1).getD ⟨0, [], []⟩).addresses = some p ∧
        p.2.mask = k ∧ p.2.mac = intf.mac) ∧
    (∀ vlan key x,
      nmFind key ((nmFind vlan m).getD ⟨0, [], []⟩).addresses = some x →
      nmFind key ((nmFind vlan m1).getD ⟨0, [], []⟩).addresses = some x) := by
  unfold vlanIntfRecord at h
  by_cases hins : (nsInsert intf.id entry.interfaces).2 = false
  · rw [if_pos hins] at h
    cases h
  · rw [if_neg hins] at h
    cases hva : vlanAddrsInsert intf.vlanID intf.mac intf.id
        intf.addresses entry.addresses with
    | error e2 => rw [hva] at h; cases h
    | ok addrs =>
        rw [hva] at h
        dsimp only at h
        simp only [Except.ok.injEq] at h
        subst h
        obtain ⟨va1, va2⟩ := vlanAddrsInsert_ok intf.vlanID intf.mac intf.id
          intf.addresses entry.addresses addrs hva
        constructor
        · intro ip k hmem
          obtain ⟨p, hp, hpm, hpc⟩ := va2 ip k hmem
          refine ⟨p, ?_, hpm, hpc⟩
          rw [nmFind_set_self]
          exact nmFind_emplace_preserve _ _ _ _ _ hp
        · intro vlan key x hx
          by_cases hv : vlan = intf.vlanID
          · subst hv
            rw [nmFind_set_self]
            rw [← haddr] at hx
            exact nmFind_emplace_preserve _ _ _ _ _ (va1 key x hx)
          · rw [nmFind_set_ne _ _ _ _ hv]
            exact hx

theorem vlanIntfRecord_shape (m : NatMap VlanInterfaceInfo)
    (intf : Interface) (entry : VlanInterfaceInfo)
    (m1 : NatMap VlanInterfaceInfo)
    (h : vlanIntfRecord m intf entry = .ok m1) :
    ∃ ifs addrs2, m1 = nmSet intf.vlanID ⟨entry.routerID, ifs, addrs2⟩ m := by
  unfold vlanIntfRecord at h
  by_cases hins : (nsInsert intf.id entry.interfaces).2 = false
  · rw [if_pos hins] at h
    cases h
  · rw [if_neg hins] at h
    cases hva : vlanAddrsInsert intf.vlanID intf.mac intf.id
        intf.addresses entry.addresses with
    | error e2 => rw [hva] at h; cases h
    | ok addrs =>
        rw [hva] at h
        dsimp only at h
        simp only [Except.ok.injEq] at h
        subst h
        exact ⟨_, _, rfl⟩

theorem updateVlanInterfaces_stored (m : NatMap VlanInterfaceInfo)
    (i : Interface) (m1 : NatMap VlanInterfaceInfo)
    (h : updateVlanInterfaces m i = .ok m1) :
    (∀ ip k, (ip, k) ∈ i.addresses →
      ∃ p, nmFind (ipKey ip)
        ((nmFind i.vlanID m1).getD ⟨0, [], []⟩).addresses = some p ∧
        p.2.mask = k ∧ p.2.mac = i.mac) ∧
    (∀ vlan key x,
      nmFind key ((nmFind vlan m).getD ⟨0, [], []⟩).addresses = some x →
      nmFind key ((nmFind vlan m1).getD ⟨0, [], []⟩).addresses = some x) := by
  unfold updateVlanInterfaces at h
  by_cases hemp : ((nmFind i.vlanID m).getD ⟨0, [], []⟩).interfaces.isEmpty
  · rw [if_pos hemp] at h
    exact vlanIntfRecord_stored m i
      { routerID := i.routerID,
        interfaces := ((nmFind i.vlanID m).getD ⟨0, [], []⟩).interfaces,
        addresses := ((nmFind i.vlanID m).getD ⟨0, [], []⟩).addresses }
      m1 rfl h
  · rw [if_neg hemp] at h
    by_cases hr : i.routerID ≠ ((nmFind i.vlanID m).getD ⟨0, [], []⟩).routerID
    · rw [if_pos hr] at h
      cases h
    · rw [if_neg hr] at h
      exact vlanIntfRecord_stored m i _ m1 rfl h

theorem processVlanInterfaces_preserve (l : List Interface) :
    ∀ (m0 m : NatMap VlanInterfaceInfo),
      processVlanInterfaces l m0 = .ok m →
      ∀ vlan key x,
        nmFind key ((nmFind vlan m0).getD ⟨0, [], []⟩).addresses = some x →
        nmFind key ((nmFind vlan m).getD ⟨0, [], []⟩).addresses = some x := by
  induction l with
  | nil =>
      intro m0 m h
      simp only [processVlanInterfaces, Except.ok.injEq] at h
      subst h
      exact fun vlan key x hx => hx
  | cons i rest ih =>
      intro m0 m h
      rw [processVlanInterfaces] at h
      simp only [bind, Except.bind] at h
      cases h1 : updateVlanInterfaces m0 i with
      | error e => rw [h1] at h; cases h
      | ok m1 =>
          rw [h1] at h
          intro vlan key x hx
          exact ih m1 m h vlan key x
            ((updateVlanInterfaces_stored m0 i m1 h1).2 vlan key x hx)

theorem processVlanInterfaces_stored (l : List Interface) :
    ∀ (m0 m : NatMap VlanInterfaceInfo),
      processVlanInterfaces l m0 = .ok m →
      ∀ i ∈ l, ∀ ip k, (ip, k) ∈ i.addresses →
        ∃ p, nmFind (ipKey ip)
          ((nmFind i.vlanID m).getD ⟨0, [], []⟩).addresses = some p ∧
          p.2.mask = k ∧ p.2.mac = i.mac := by
  induction l with
  | nil => intro m0 m h i hi; cases hi
  | cons i0 rest ih =>
      intro m0 m h i hi ip k hmem
      rw [processVlanInterfaces] at h
      simp only [bind, Except.bind] at h
      cases h1 : updateVlanInterfaces m0 i0 with
      | error e => rw [h1] at h; cases h
      | ok m1 =>
          rw [h1] at h
          rcases List.mem_cons.mp hi with rfl | hi
          · obtain ⟨p, hp, hpm, hpc⟩ :=
              (updateVlanInterfaces_stored m0 i m1 h1).1 ip k hmem
            exact ⟨p, processVlanInterfaces_preserve rest m1 m h
              i.vlanID (ipKey ip) p hp, hpm, hpc⟩
          · exact ih m1 m h i hi ip k hmem

/-- C7: the first interface inserted for a VLAN sets that VLAN's router id;
a subsequently inserted interface on the same VLAN with a different router
id fails with the multi-router error; in particular two interfaces on
VLAN 10 with router ids 1 and 2 fail with `VlanMultiRouter(10, 1, 2)`
(scenario S2). -/
theorem updateVlanInterfaces_router :
    (∀ (m : NatMap VlanInterfaceInfo) (intf : Interface)
       (m1 : NatMap VlanInterfaceInfo),
      ((nmFind intf.vlanID m).getD ⟨0, [], []⟩).interfaces = [] →
      updateVlanInterfaces m intf = .ok m1 →
      ∃ e, nmFind intf.vlanID m1 = some e ∧ e.routerID = intf.routerID) ∧
    (∀ (m : NatMap VlanInterfaceInfo) (intf : Interface)
       (e : VlanInterfaceInfo),
      nmFind intf.vlanID m = some e → e.interfaces ≠ [] →
      intf.routerID ≠ e.routerID →
      updateVlanInterfaces m intf =
        .error (.vlanMultiRouter intf.vlanID e.routerID intf.routerID)) ∧
    processVlanInterfaces [s2IntfA, s2IntfB] [] =
      .error (.vlanMultiRouter 10 1 2) := by
  refine ⟨?_, ?_, by decide⟩
  · intro m intf m1 hemp h
    unfold updateVlanInterfaces at h
    rw [if_pos (by rw [hemp]; rfl)] at h
    obtain ⟨ifs, addrs2, hm1⟩ := vlanIntfRecord_shape m intf _ m1 h
    subst hm1
    exact ⟨_, nmFind_set_self _ _ _, rfl⟩
  · intro m intf e hf hne hr
    unfold updateVlanInterfaces
    rw [hf]
    rw [if_neg (by
      simp only [Option.getD_some]
      intro hh
      exact hne (List.isEmpty_iff.mp hh))]
    rw [if_pos (by simpa using hr)]
    rfl

/-- C7 witness: the multi-router half of the theorem applied to a VLAN-10
index entry with router 1 and an interface with router 2. -/
theorem updateVlanInterfaces_router_w :
    updateVlanInterfaces [(10, ⟨1, [7], []⟩)] s2IntfB =
      .error (.vlanMultiRouter 10 1 2) :=
  updateVlanInterfaces_router.2.1 [(10, ⟨1, [7], []⟩)] s2IntfB ⟨1, [7], []⟩
    (by decide) (by decide) (by decide)

/-- C8 counterexample: two interfaces on VLAN 10 carrying the same address
`10.0.0.1/24` with identical prefix length and identical MAC still fail to
reconcile (their router ids differ), refuting "reconciliation succeeds if
and only if both occurrences have the same prefix length and the same
MAC". -/
theorem vlanDupIp_iff_cex :
    processVlanInterfaces [s2IntfA, s2IntfB] [] =
      .error (.vlanMultiRouter 10 1 2) ∧
    s2IntfA.addresses = s2IntfB.addresses ∧
    s2IntfA.mac = s2IntfB.mac ∧
    s2IntfA.vlanID = s2IntfB.vlanID := by
  refine ⟨by decide, by decide, by decide, by decide⟩

/-- C8 (amended): whenever the interface index is built successfully, every
pair of interfaces on the same VLAN carrying the same IP address agrees on
prefix length and MAC (so a pair differing in either aborts the apply);
scenario S4 — same IP and prefix length on VLAN 10, different MACs —
fails with the MAC flavour of `VlanAddressMismatch(10, 10.0.0.1, mac)`. -/
theorem vlan_dup_ip_spec :
    (∀ (l : List Interface) (m : NatMap VlanInterfaceInfo),
      processVlanInterfaces l [] = .ok m →
      ∀ i1 ∈ l, ∀ i2 ∈ l, i1.vlanID = i2.vlanID →
      ∀ ip k1 k2, (ip, k1) ∈ i1.addresses → (ip, k2) ∈ i2.addresses →
        k1 = k2 ∧ i1.mac = i2.mac) ∧
    processVlanInterfaces [s2IntfA, s4IntfB] [] =
      .error (.vlanAddressMismatchMac 10 (.v4 0x0a000001)
        ⟨0xaa, 0xbb, 0xcc, 0, 0, 1⟩ ⟨0xaa, 0xbb, 0xcc, 0, 0, 2⟩) := by
  refine ⟨?_, by decide⟩
  intro l m h i1 h1 i2 h2 hv ip k1 k2 hm1 hm2
  obtain ⟨p1, hp1, hpm1, hpc1⟩ :=
    processVlanInterfaces_stored l [] m h i1 h1 ip k1 hm1
  obtain ⟨p2, hp2, hpm2, hpc2⟩ :=
    processVlanInterfaces_stored l [] m h i2 h2 ip k2 hm2
  rw [hv] at hp1
  rw [hp1] at hp2
  cases hp2
  constructor
  · rw [← hpm1, ← hpm2]
  · rw [← hpc1, ← hpc2]

/-- C8 witness: the success half of the amended theorem applied to scenario
S3 (two interfaces on VLAN 10, both `10.0.0.1/24`, same MAC, same
router), which reconciles successfully; the pair necessarily agrees on
prefix length and MAC. -/
theorem vlan_dup_ip_spec_w :
    (24 : Nat) = 24 ∧ s2IntfA.mac =
      ({ id := 3, routerID := 1, vlanID := 10, name := "ifC",
         mac := ⟨0xaa, 0xbb, 0xcc, 0, 0, 1⟩, mtu := 1500,
         addresses := [(.v4 0x0a000001, 24)], ndp := 0,
         isVirtual := false, isStateSyncDisabled := false } : Interface).mac :=
  vlan_dup_ip_spec.1
    [s2IntfA,
     { id := 3, routerID := 1, vlanID := 10, name := "ifC",
       mac := ⟨0xaa, 0xbb, 0xcc, 0, 0, 1⟩, mtu := 1500,
       addresses := [(.v4 0x0a000001, 24)], ndp := 0,
       isVirtual := false, isStateSyncDisabled := false }] _ rfl
    s2IntfA (by decide)
    { id := 3, routerID := 1, vlanID := 10, name := "ifC",
      mac := ⟨0xaa, 0xbb, 0xcc, 0, 0, 1⟩, mtu := 1500,
      addresses := [(.v4 0x0a000001, 24)], ndp := 0,
      isVirtual := false, isStateSyncDisabled := false } (by decide)
    (by decide) (.v4 0x0a000001) 24 24 (by decide) (by decide)

theorem nmFind_insertSorted_cases {α : Type} (j k : Nat) (v : α)
    (m : NatMap α) (x : α)
    (h : nmFind j (nmInsertSorted k v m) = some x) :
    x = v ∨ nmFind j m = some x := by
  induction m with
  | nil =>
      simp only [nmInsertSorted, nmFind] at h
      by_cases hk : k = j
      · rw [if_pos hk] at h
        cases h
        exact Or.inl rfl
      · rw [if_neg hk] at h
        cases h
  | cons e t ih =>
      obtain ⟨k1, v1⟩ := e
      by_cases h1 : k < k1
      · rw [nmInsertSorted, if_pos h1] at h
        rw [nmFind] at h
        by_cases hk : k = j
        · rw [if_pos hk] at h
          cases h
          exact Or.inl rfl
        · rw [if_neg hk] at h
          exact Or.inr h
      · rw [nmInsertSorted, if_neg h1] at h
        rw [nmFind] at h
        by_cases hk : k1 = j
        · rw [if_pos hk] at h
          exact Or.inr (by rw [nmFind, if_pos hk]; exact h)
        · rw [if_neg hk] at h
          rcases ih h with hv | hold
          · exact Or.inl hv
          · exact Or.inr (by rw [nmFind, if_neg hk]; exact hold)

theorem nmFind_replace_cases {α : Type} (j k : Nat) (v : α) (m : NatMap α)
    (x : α) (h : nmFind j (nmReplace k v m) = some x) :
    x = v ∨ nmFind j m = some x := by
  induction m with
  | nil => cases h
  | cons e t ih =>
      obtain ⟨k1, v1⟩ := e
      by_cases h1 : k1 = k
      · rw [nmReplace, if_pos h1] at h
        rw [nmFind] at h
        by_cases hk : k1 = j
        · rw [if_pos hk] at h
          cases h
          exact Or.inl rfl
        · rw [if_neg hk] at h
          exact Or.inr (by rw [nmFind, if_neg hk]; exact h)
      · rw [nmReplace, if_neg h1] at h
        rw [nmFind] at h
        by_cases hk : k1 = j
        · rw [if_pos hk] at h
          exact Or.inr (by rw [nmFind, if_pos hk]; exact h)
        · rw [if_neg hk] at h
          rcases ih h with hv | hold
          · exact Or.inl hv
          · exact Or.inr (by rw [nmFind, if_neg hk]; exact hold)

theorem nmFind_set_cases {α : Type} (j k : Nat) (v : α) (m : NatMap α)
    (x : α) (h : nmFind j (nmSet k v m) = some x) :
    x = v ∨ nmFind j m = some x := by
  unfold nmSet at h
  cases hf : nmFind k m with
  | none =>
      rw [hf] at h
      exact nmFind_insertSorted_cases j k v m x h
  | some w =>
      rw [hf] at h
      exact nmFind_replace_cases j k v m x h

theorem intfAddrsLoop_ok (iid rid : Nat) (l : List (IPAddr × Nat)) :
    ∀ (addrs : NatMap (IPAddr × Nat)) (rt : IntfRouteTable)
      (addrs1 : NatMap (IPAddr × Nat)) (rt1 : IntfRouteTable),
      intfAddrsLoop iid rid l addrs rt = .ok (addrs1, rt1) →
      (∀ key x, nmFind key addrs = some x → nmFind key addrs1 = some x) ∧
      (intfRouteTableNoV6LL rt → intfRouteTableNoV6LL rt1) := by
  induction l with
  | nil =>
      intro addrs rt addrs1 rt1 h
      simp only [intfAddrsLoop, Except.ok.injEq, Prod.mk.injEq] at h
      obtain ⟨h1, h2⟩ := h
      subst h1
      subst h2
      exact ⟨fun key x hx => hx, fun hp => hp⟩
  | cons e rest ih =>
      obtain ⟨ip, len⟩ := e
      intro addrs rt addrs1 rt1 h
      rw [intfAddrsLoop] at h
      dsimp only at h
      by_cases hdup : (nmEmplace (ipKey ip) (ip, len) addrs).2 = false
      · rw [if_pos hdup] at h
        cases h
      · rw [if_neg hdup] at h
        have haddrpres : ∀ key x, nmFind key addrs = some x →
            nmFind key (nmEmplace (ipKey ip) (ip, len) addrs).1 = some x :=
          fun key x hx => nmFind_emplace_preserve key (ipKey ip) (ip, len) x
            addrs hx
        by_cases hll : ip.isV6 && ip.isLinkLocal
        · rw [if_pos hll] at h
          obtain ⟨p1, p2⟩ := ih _ _ _ _ h
          exact ⟨fun key x hx => p1 key x (haddrpres key x hx), p2⟩
        · rw [if_neg hll] at h
          have hllip : ¬(ip.isV6 = true ∧ ip.isLinkLocal = true) := by
            intro hc
            exact hll (by rw [hc.1, hc.2]; rfl)
          cases hft : nmFind (pfxKey (ip.mask len, len))
              ((nmFind rid rt).getD []) with
          | none =>
              rw [hft] at h
              dsimp only at h
              obtain ⟨p1, p2⟩ := ih _ _ _ _ h
              refine ⟨fun key x hx => p1 key x (haddrpres key x hx), ?_⟩
              intro hno
              apply p2
              intro router table hrt key p hp
              rcases nmFind_set_cases router rid _ rt table hrt with htb | htb
              · subst htb
                rcases nmFind_insertSorted_cases key _ _ _ p hp with hpv | hpv
                · subst hpv
                  simpa using hllip
                · cases hrt0 : nmFind rid rt with
                  | none => rw [hrt0] at hpv; cases hpv
                  | some t0 =>
                      rw [hrt0] at hpv
                      exact hno rid t0 hrt0 key p hpv
              · exact hno router table htb key p hp
          | some p0 =>
              rw [hft] at h
              dsimp only at h
              by_cases hother : p0.2.1 ≠ iid
              · rw [if_pos hother] at h
                cases h
              · rw [if_neg hother] at h
                obtain ⟨p1, p2⟩ := ih _ _ _ _ h
                refine ⟨fun key x hx => p1 key x (haddrpres key x hx), ?_⟩
                intro hno
                apply p2
                intro router table hrt key p hp
                rcases nmFind_set_cases router rid _ rt table hrt with htb | htb
                · subst htb
                  rcases nmFind_set_cases key _ _ _ p hp with hpv | hpv
                  · subst hpv
                    simpa using hllip
                  · cases hrt0 : nmFind rid rt with
                    | none => rw [hrt0] at hpv; cases hpv
                    | some t0 =>
                        rw [hrt0] at hpv
                        exact hno rid t0 hrt0 key p hpv
                · exact hno router table htb key p hp

/-- C6 counterexample: an interface config may list further v6 link-local
addresses (here `fe80::1/64`) beside the auto-generated EUI-64 one, so a
successfully reconciled interface can carry *two* v6 link-local addresses —
refuting "exactly its one v6 link-local address". -/
theorem intf_two_linklocals_cex :
    (getInterfaceAddresses c6Cfg ⟨0, 0, 0, 0, 0, 0⟩ []).toOption.map
      (fun r => (r.1.filter
        (fun e => e.2.1.isV6 && e.2.1.isLinkLocal)).length) = some 2 := by
  decide

/-- C6 (amended): after a successful `getInterfaceAddresses`, the interface
address set contains the EUI-64 v6 link-local derived from its MAC (config
MAC, falling back to the platform MAC) at prefix length 64 — though further
configured v6 link-locals may sit beside it — and the interface route
tables never record a v6 link-local interface address. -/
theorem getInterfaceAddresses_linklocal (config : CfgInterface)
    (pm : Mac) (rt : IntfRouteTable) (addrs : NatMap (IPAddr × Nat))
    (rt1 : IntfRouteTable)
    (h : getInterfaceAddresses config pm rt = .ok (addrs, rt1)) :
    nmFind (ipKey (linkLocalV6OfMac (config.mac.getD pm))) addrs =
      some (linkLocalV6OfMac (config.mac.getD pm), 64) ∧
    (intfRouteTableNoV6LL rt → intfRouteTableNoV6LL rt1) := by
  unfold getInterfaceAddresses at h
  obtain ⟨p1, p2⟩ := intfAddrsLoop_ok config.intfID config.routerID
    config.ipAddresses _ rt addrs rt1 h
  refine ⟨p1 _ _ ?_, p2⟩
  rw [nmFind_emplace]
  simp [nmFind]

/-- C6 witness: the amended theorem applied to an interface with no config
addresses; its address set is exactly the derived link-local at /64 and the
empty route table stays free of v6 link-locals. -/
theorem getInterfaceAddresses_linklocal_w :
    nmFind (ipKey (linkLocalV6OfMac ⟨0, 0, 0, 0, 0, 1⟩))
      [(ipKey (linkLocalV6OfMac ⟨0, 0, 0, 0, 0, 1⟩),
        (linkLocalV6OfMac ⟨0, 0, 0, 0, 0, 1⟩, 64))] =
      some (linkLocalV6OfMac ⟨0, 0, 0, 0, 0, 1⟩, 64) ∧
    (intfRouteTableNoV6LL [] → intfRouteTableNoV6LL []) :=
  getInterfaceAddresses_linklocal
    { intfID := 4, routerID := 0, vlanID := 10, name := none,
      mac := some ⟨0, 0, 0, 0, 0, 1⟩, mtu := none, ipAddresses := [],
      ndp := none, isVirtual := false, isStateSyncDisabled := false }
    ⟨9, 9, 9, 9, 9, 9⟩ [] _ [] rfl

theorem createAcl_ok (config : CfgAclEntry) (priority : Nat)
    (action : Option MatchAction) (a : AclEntry)
    (h : createAcl config priority action = .ok a) :
    a.priority = priority ∧ a.name = config.name := by
  unfold createAcl at h
  cases hc : checkAcl config with
  | error e => rw [hc] at h; cases h
  | ok u =>
      rw [hc] at h
      simp only [Except.ok.injEq] at h
      subst h
      exact ⟨rfl, rfl⟩

theorem updateAcl_priority (origAcls : List (String × AclEntry))
    (acl : CfgAclEntry) (priority : Nat) (action : Option MatchAction)
    (r : AclEntry × Nat × Bool)
    (h : updateAcl origAcls acl priority action = .ok r) :
    r.1.priority = priority := by
  unfold updateAcl at h
  cases hc : createAcl acl priority action with
  | error e => rw [hc] at h; cases h
  | ok newAcl =>
      rw [hc] at h
      dsimp only at h
      obtain ⟨hp, _⟩ := createAcl_ok acl priority action newAcl hc
      cases hf : origAcls.find? (fun e => e.1 == acl.name) with
      | none =>
          rw [hf] at h
          simp only [Except.ok.injEq] at h
          subst h
          exact hp
      | some oe =>
          rw [hf] at h
          dsimp only at h
          by_cases he : oe.2 = newAcl
          · rw [if_pos he] at h
            simp only [Except.ok.injEq] at h
            subst h
            show oe.2.priority = priority
            rw [he]
            exact hp
          · rw [if_neg he] at h
            simp only [Except.ok.injEq] at h
            subst h
            exact hp

theorem emitDenyAcls_spec (origAcls : List (String × AclEntry))
    (l : List CfgAclEntry) :
    ∀ start res, emitDenyAcls origAcls l start = .ok res →
      res.entries.map (fun e => e.2.priority) =
        List.range' start res.entries.length ∧
      res.nextPriority = start + res.entries.length ∧
      res.entries.map Prod.fst = l.map (·.name) := by
  induction l with
  | nil =>
      intro start res h
      simp only [emitDenyAcls, Except.ok.injEq] at h
      subst h
      exact ⟨rfl, rfl, rfl⟩
  | cons acl rest ih =>
      intro start res h
      rw [emitDenyAcls] at h
      cases hu : updateAcl origAcls acl start none with
      | error e => rw [hu] at h; cases h
      | ok r =>
          rw [hu] at h
          dsimp only at h
          cases he : emitDenyAcls origAcls rest (start + 1) with
          | error e => rw [he] at h; cases h
          | ok rr =>
              rw [he] at h
              dsimp only at h
              simp only [Except.ok.injEq] at h
              subst h
              obtain ⟨ih1, ih2, ih3⟩ := ih (start + 1) rr he
              refine ⟨?_, ?_, ?_⟩
              · simp only [List.map_cons, List.length_cons, List.range'_succ]
                rw [updateAcl_priority _ _ _ _ _ hu, ih1]
              · simp only [List.length_cons]
                omega
              · simp only [List.map_cons, ih3]

theorem addToAcls_spec (origAcls : List (String × AclEntry))
    (cfgAcls : List CfgAclEntry) (tag : String) (dstPortID : Int)
    (p : TrafficPolicyConfig) :
    ∀ start res, addToAcls origAcls cfgAcls tag dstPortID p start = .ok res →
      res.entries.map (fun e => e.2.priority) =
        List.range' start res.entries.length ∧
      res.nextPriority = start + res.entries.length ∧
      ∀ e ∈ res.entries, ∃ mta ∈ p,
        e.1 = "system:" ++ tag ++ mta.matcher := by
  induction p with
  | nil =>
      intro start res h
      simp only [addToAcls, Except.ok.injEq] at h
      subst h
      exact ⟨rfl, rfl, by simp⟩
  | cons mta rest ih =>
      intro start res h
      rw [addToAcls] at h
      cases hf : cfgAcls.find? (fun a => a.name == mta.matcher) with
      | none => rw [hf] at h; cases h
      | some aclCfg =>
          rw [hf] at h
          dsimp only at h
          by_cases hconf : dstPortID ≠ -1 ∧
              aclCfg.dstPort.any (fun d => d ≠ dstPortID)
          · rw [if_pos hconf] at h
            cases h
          · rw [if_neg hconf] at h
            by_cases hdeny : aclCfg.actionType = .deny
            · rw [if_pos hdeny] at h
              obtain ⟨ih1, ih2, ih3⟩ := ih start res h
              refine ⟨ih1, ih2, ?_⟩
              intro e he
              obtain ⟨mta1, hm, hn⟩ := ih3 e he
              exact ⟨mta1, List.mem_cons_of_mem mta hm, hn⟩
            · rw [if_neg hdeny] at h
              cases hu : updateAcl origAcls
                  { aclCfg with
                    name := "system:" ++ tag ++ mta.matcher,
                    dstPort := if dstPortID ≠ -1 then some dstPortID
                      else aclCfg.dstPort } start
                  (some ⟨mta.sendToQueue.map (fun q => (q, false)),
                    mta.packetCounter⟩) with
              | error e => rw [hu] at h; cases h
              | ok r =>
                  rw [hu] at h
                  dsimp only at h
                  cases he : addToAcls origAcls cfgAcls tag dstPortID rest
                      (start + 1) with
                  | error e => rw [he] at h; cases h
                  | ok rr =>
                      rw [he] at h
                      dsimp only at h
                      simp only [Except.ok.injEq] at h
                      subst h
                      obtain ⟨ih1, ih2, ih3⟩ := ih (start + 1) rr he
                      refine ⟨?_, ?_, ?_⟩
                      · simp only [List.map_cons, List.length_cons,
                          List.range'_succ]
                        rw [updateAcl_priority _ _ _ _ _ hu, ih1]
                      · simp only [List.length_cons]
                        omega
                      · intro e he1
                        rcases List.mem_cons.mp he1 with rfl | he1
                        · exact ⟨mta, List.mem_cons_self mta rest, rfl⟩
                        · obtain ⟨mta1, hm, hn⟩ := ih3 e he1
                          exact ⟨mta1, List.mem_cons_of_mem mta hm, hn⟩

/-- C3: ACL priorities are assigned strictly increasing from the base
100000 — first every DENY config acl in config order, then every non-DENY
matcher expanded from the global egress traffic policy in policy order
(each emission taking the next priority); and in scenario S5 (acls
`[A:PERMIT, B:DENY]`, global policy matching `A`), `B` gets 100000 and
`system:A` gets 100001. -/
theorem updateAcls_priorities (origAcls : List (String × AclEntry))
    (cfgAcls : List CfgAclEntry) (p : TrafficPolicyConfig)
    (deny pol : AclEmit)
    (hd : emitDenyAcls origAcls
      (cfgAcls.filter (fun a => a.actionType == .deny)) kAclStartPriority =
      .ok deny)
    (hp : addToAcls origAcls cfgAcls "" (-1) p deny.nextPriority = .ok pol) :
    ((deny.entries ++ pol.entries).map (fun e => e.2.priority) =
      List.range' kAclStartPriority
        (deny.entries.length + pol.entries.length)) ∧
    deny.entries.map Prod.fst =
      (cfgAcls.filter (fun a => a.actionType == .deny)).map (·.name) ∧
    (∀ e ∈ pol.entries, ∃ mta ∈ p, e.1 = "system:" ++ "" ++ mta.matcher) ∧
    ((updateAcls [] [s5AclA, s5AclB]
        (some [⟨"A", some 4, none⟩])).toOption.join).map
      (fun l => l.map (fun e => (e.1, e.2.priority))) =
      some [("B", 100000), ("system:A", 100001)] := by
  obtain ⟨d1, d2, d3⟩ := emitDenyAcls_spec origAcls _ kAclStartPriority deny hd
  obtain ⟨p1, p2, p3⟩ := addToAcls_spec origAcls cfgAcls "" (-1) p
    deny.nextPriority pol hp
  refine ⟨?_, d3, p3, by decide⟩
  rw [List.map_append, d1, p1, d2, List.range'_append_1,
    Nat.add_comm pol.entries.length deny.entries.length]

/-- C3 witness: the theorem applied at scenario S5; its conclusion includes
the concrete S5 priorities. -/
theorem updateAcls_priorities_w :
    ((updateAcls [] [s5AclA, s5AclB]
        (some [⟨"A", some 4, none⟩])).toOption.join).map
      (fun l => l.map (fun e => (e.1, e.2.priority))) =
      some [("B", 100000), ("system:A", 100001)] :=
  (updateAcls_priorities [] [s5AclA, s5AclB] [⟨"A", some 4, none⟩]
    _ _ rfl rfl).2.2.2

/-- C2 (code bug): with a config whose two DENY acls share the name "X",
the first apply succeeds and returns a state, and the second apply — of the
same config to that state — again returns a state instead of the "no
change" sentinel, so `apply(apply(s, c).unwrap_or(s), c) ≠ None`:
`updateAcls` silently deduplicates the double emission in the resulting map
(no `DuplicateEntry` check on this path) but re-counts both emissions
against the single stored entry on every later run, so either the second
emission compares unequal (priority 100001 vs the stored 100000) or
`numExistingProcessed (= 2)` differs from the map size (= 1), and `changed`
is reported forever. -/
theorem run_not_idempotent_dup_acl :
    okSome (run emptyState dupAclConfig ⟨⟨0, 0, 0, 0, 0, 2⟩⟩ emptyConfig) =
      true ∧
    okSome (specApplySecond emptyState dupAclConfig ⟨⟨0, 0, 0, 0, 0, 2⟩⟩
      emptyConfig) = true := by
  exact ⟨by decide, by decide⟩

theorem except_bind_ok {α β : Type} {x : Except Err α} {f : α → Except Err β}
    {r : β} (h : bind x f = Except.ok r) :
    ∃ a, x = Except.ok a ∧ f a = Except.ok r := by
  cases x with
  | ok a => exact ⟨a, rfl, h⟩
  | error e =>
      have h2 : (Except.error e : Except Err β) = Except.ok r := h
      exact Except.noConfusion h2

theorem pure_ok {α : Type} {a r : α}
    (h : (pure a : Except Err α) = Except.ok r) : a = r := by
  have h2 : (Except.ok a : Except Err α) = Except.ok r := h
  injection h2

theorem ite_err_ok {α : Type} {c : Prop} [Decidable c] {e : Err} {a r : α}
    (h : (if c then Except.error e else Except.ok a) = Except.ok r) :
    a = r := by
  by_cases hc : c
  · rw [if_pos hc] at h
    exact Except.noConfusion h
  · rw [if_neg hc] at h
    injection h

theorem ite_eq_or {α : Type} {c : Prop} [Decidable c] {x y z : α}
    (h : (if c then x else y) = z) : x = z ∨ y = z := by
  by_cases hc : c
  · rw [if_pos hc] at h
    exact Or.inl h
  · rw [if_neg hc] at h
    exact Or.inr h

theorem ite_ok_opt {α : Type} {c : Bool} {a : α} {r : Option α}
    (h : (if c = true then Except.ok (some a)
        else Except.ok (none : Option α)) =
      (Except.ok r : Except Err (Option α))) :
    r.isSome = c := by
  cases c
  · rw [if_neg Bool.false_ne_true] at h
    injection h with h2
    subst h2
    rfl
  · rw [if_pos rfl] at h
    injection h with h2
    subst h2
    rfl

theorem okSome_ok {α : Type} (x : Option α) :
    okSome (Except.ok x : Except Err (Option α)) = x.isSome := by
  cases x <;> rfl

theorem isDupVlanPortErr_error {α β : Type} (e : Err) :
    @isDupVlanPortErr α (.error e) = @isDupVlanPortErr β (.error e) := by
  cases e <;> rfl

/-- The (port, VLAN) pair is already present in the port→VLAN index. -/
def vlanPortPresent (pv : NatMap (NatMap Bool)) (pr : Nat × Nat) : Prop :=
  (nmFind pr.2 ((nmFind pr.1 pv).getD [])).isSome = true

theorem vlanPortPresent_mono (pv : NatMap (NatMap Bool)) (port vlan : Nat)
    (tags : Bool) (p' : Nat × Nat) (h : vlanPortPresent pv p') :
    vlanPortPresent
      (nmSet port (nmEmplace vlan tags ((nmFind port pv).getD [])).1 pv)
      p' := by
  unfold vlanPortPresent at h ⊢
  by_cases hp : p'.1 = port
  · rw [hp] at h ⊢
    rw [nmFind_set_self]
    cases hx : nmFind p'.2 ((nmFind port pv).getD []) with
    | none => rw [hx] at h; cases h
    | some x =>
        simp only [Option.getD_some]
        rw [nmFind_emplace_preserve _ _ _ _ _ hx]
        rfl
  · rw [nmFind_set_ne _ _ _ _ hp]
    exact h

theorem processVlanPortsLoop_dup (l : List CfgVlanPort) :
    ∀ pv vp,
      ((∃ vpc ∈ l, vlanPortPresent pv (vpc.logicalPort, vpc.vlanID)) ∨
        ¬(l.map (fun vpc => (vpc.logicalPort, vpc.vlanID))).Nodup) →
      isDupVlanPortErr (processVlanPortsLoop l pv vp) = true := by
  induction l with
  | nil =>
      intro pv vp h
      rcases h with ⟨vpc, hm, _⟩ | h
      · cases hm
      · simp at h
  | cons vpc rest ih =>
      intro pv vp h
      simp only [processVlanPortsLoop]
      by_cases h1 : (nmEmplace vpc.vlanID vpc.emitTags
          ((nmFind vpc.logicalPort pv).getD [])).2 = false
      · rw [if_pos h1]
        rfl
      · rw [if_neg h1]
        by_cases h2 : (nmEmplace vpc.logicalPort vpc.emitTags
            ((nmFind vpc.vlanID vp).getD [])).2 = false
        · rw [if_pos h2]
          rfl
        · rw [if_neg h2]
          apply ih
          have hnotpres : ¬ vlanPortPresent pv (vpc.logicalPort, vpc.vlanID) := by
            intro hpres
            unfold vlanPortPresent at hpres
            dsimp only at hpres
            rw [nmEmplace_snd] at h1
            cases hx : nmFind vpc.vlanID ((nmFind vpc.logicalPort pv).getD [])
              with
            | none => rw [hx] at hpres; cases hpres
            | some x => rw [hx] at h1; exact h1 rfl
          rcases h with ⟨vpc1, hm, hpres⟩ | hnd
          · rcases List.mem_cons.mp hm with rfl | hm
            · exact absurd hpres hnotpres
            · exact Or.inl ⟨vpc1, hm, vlanPortPresent_mono pv vpc.logicalPort
                vpc.vlanID vpc.emitTags _ hpres⟩
          · rw [List.map_cons, List.nodup_cons, not_and_or] at hnd
            rcases hnd with hmem | hnd
            · rw [not_not] at hmem
              obtain ⟨vpc1, hm1, hpe⟩ := List.mem_map.mp hmem
              have hpe1 : (vpc1.logicalPort, vpc1.vlanID) =
                  (vpc.logicalPort, vpc.vlanID) := hpe
              refine Or.inl ⟨vpc1, hm1, ?_⟩
              rw [hpe1]
              unfold vlanPortPresent
              dsimp only
              rw [nmFind_set_self]
              simp only [Option.getD_some]
              rw [nmFind_emplace]
              simp
            · exact Or.inr hnd

/-- C10: a config whose `vlanPorts` lists the same (port id, VLAN id) pair
twice makes apply fail with the duplicate-entry error raised while building
the port↔VLAN membership index: for every previous state, platform and
previous config, `run` returns that error — no state is produced and no
other reconciler's effect or error surfaces (the only phase preceding the
index build is the control-plane stub, which can neither fail nor report a
change). -/
theorem run_dup_vlanPort (orig : SwitchState) (cfg : SwitchConfig)
    (pl : Platform) (prevCfg : SwitchConfig)
    (h : ¬(cfg.vlanPorts.map
      (fun vp => (vp.logicalPort, vp.vlanID))).Nodup) :
    isDupVlanPortErr (run orig cfg pl prevCfg) = true := by
  have hp := processVlanPortsLoop_dup cfg.vlanPorts [] [] (Or.inr h)
  rw [show processVlanPortsLoop cfg.vlanPorts [] [] =
    processVlanPorts cfg.vlanPorts from rfl] at hp
  cases he : processVlanPorts cfg.vlanPorts with
  | ok val =>
      rw [he] at hp
      cases hp
  | error e =>
      rw [he] at hp
      simp only [run, bind, Except.bind, he]
      exact (isDupVlanPortErr_error e).trans hp

/-- C10 witness: the theorem applied to a config listing (port 1, VLAN 10)
twice. -/
theorem run_dup_vlanPort_w :
    isDupVlanPortErr (run emptyState dupVlanPortConfig ⟨⟨0, 0, 0, 0, 0, 2⟩⟩
      emptyConfig) = true :=
  run_dup_vlanPort _ _ _ _ (by decide)

set_option maxHeartbeats 2000000 in
/-- C1: whenever the top-level apply succeeds, it returns a new state if
and only if at least one component reconciler reported a change or at
least one global scalar (default VLAN, ARP ager interval, ARP/NDP timeout,
max neighbor probes, DHCP relay/reply source overrides, stale entry
interval) differs from the previous state; otherwise it returns the
no-change sentinel `none`. -/
theorem run_changed_iff (orig : SwitchState) (cfg : SwitchConfig)
    (pl : Platform) (prevCfg : SwitchConfig) (r : Option SwitchState)
    (h : run orig cfg pl prevCfg = Except.ok r) :
    r.isSome = specAnyChange orig cfg pl prevCfg := by
  unfold run at h
  dsimp only at h
  obtain ⟨pvvp, hpv, h⟩ := except_bind_ok h
  obtain ⟨aclsR, hacl, h⟩ := except_bind_ok h
  obtain ⟨portsR, hports, h⟩ := except_bind_ok h
  obtain ⟨aggR, hagg, h⟩ := except_bind_ok h
  obtain ⟨intfR, hintf, h⟩ := except_bind_ok h
  obtain ⟨vlansR, hvl, h⟩ := except_bind_ok h
  by_cases hdv : (orig.defaultVlan != cfg.defaultVlan) = true
  · rw [if_pos hdv] at h
    rcases ite_eq_or h with h | h
    · obtain ⟨a, ha, _⟩ := except_bind_ok h
      exact Except.noConfusion ha
    · obtain ⟨nsv, hpns, h⟩ := except_bind_ok h
      have hns := pure_ok hpns
      subst hns
      obtain ⟨u, hvv, h⟩ := except_bind_ok h
      obtain ⟨sfR, hsf, h⟩ := except_bind_ok h
      unfold specAnyChange
      simp only [hpv, hintf, hacl, hports, hagg, hvl, hsf, okSome_ok]
      exact ite_ok_opt h
  · rw [if_neg hdv] at h
    obtain ⟨nsv, hpns, h⟩ := except_bind_ok h
    have hns := pure_ok hpns
    subst hns
    obtain ⟨u, hvv, h⟩ := except_bind_ok h
    obtain ⟨sfR, hsf, h⟩ := except_bind_ok h
    unfold specAnyChange
    simp only [hpv, hintf, hacl, hports, hagg, hvl, hsf, okSome_ok]
    exact ite_ok_opt h

/-- C1 witness: applying the empty config to the empty state (everything
already in sync) succeeds with the no-change sentinel, and the spec's
change condition evaluates to false. -/
theorem run_changed_iff_w :
    Option.isSome (none : Option SwitchState) =
      specAnyChange emptyState emptyConfig ⟨⟨0, 0, 0, 0, 0, 2⟩⟩
        emptyConfig :=
  run_changed_iff emptyState emptyConfig ⟨⟨0, 0, 0, 0, 0, 2⟩⟩ emptyConfig
    none (by decide)

end Fboss
